import Mathlib

/-!
# Verification of the `@selentia/async-retry` retry policy engine

This file gives a shallow embedding of the retry engine (`retry.ts`,
`createRetry.ts`, `errors.ts`, `types.ts`) and proves properties of the
embedded definitions.

Modelling conventions:
* JavaScript numbers are modelled as exact rationals extended with the
  non-finite values `NaN`, `Infinity` and `-Infinity` (`JSNum`).  Floating
  point rounding is not modelled; all the arithmetic appearing in the engine
  (sums, products, `min`, `Math.floor`, `Math.trunc`) is exact here.
* Duck-typed error values and header containers are modelled by the inductive
  `JsValue` of plain JavaScript data (objects, arrays, strings, numbers,
  `null`, `undefined`, and a fetch-style headers object carrying a `get`
  accessor).
* The asynchronous loop is modelled as a deterministic state machine.  All
  interactions with the host (successive `Date.now()` readings, `Math.random`
  draws, `signal.aborted` reads, whether an abort wins the race against a
  sleeping timer, and `Date.parse`) are supplied by an `Oracle` of streams,
  consumed through per-stream counters in the machine state `St`.
* The machine records a `trace` of observable actions: each task invocation
  (with the `RetryContext` passed to the task), each `RetryEvent` delivered to
  the `onRetry` hook, and each start of a sleep.
-/

set_option maxRecDepth 8000

namespace AsyncRetry

/-! ## JavaScript numbers -/

/-- A JavaScript number: an exact rational, or one of the non-finite values. -/
inductive JSNum where
  | num (q : ℚ)
  | nan
  | inf
  | negInf
deriving DecidableEq

/-- `Number.isFinite`. -/
def JSNum.isFinite : JSNum → Bool
  | .num _ => true
  | _ => false

/-- `Math.trunc` (rounding towards zero) on a finite number. -/
def jsTrunc (q : ℚ) : ℤ :=
  if q < 0 then -⌊-q⌋ else ⌊q⌋

/-- `toIntMs` (retry.ts line 46): non-finite inputs become `0`, finite inputs
are truncated towards zero and clamped below by `0`. -/
def toIntMs : JSNum → ℕ
  | .num q => (max 0 (jsTrunc q)).toNat
  | _ => 0

/-! ## JavaScript values (for duck-typed error/header inspection) -/

/-- A plain JavaScript value, as inspected by the engine's extraction helpers.
`vheaders` models a fetch-style `Headers` object exposing a `get` accessor
(the accessor's behaviour is part of the input value). -/
inductive JsValue where
  | vnum (n : JSNum)
  | vstr (s : String)
  | vbool (b : Bool)
  | vnull
  | vundefined
  | varr (xs : List JsValue)
  | vobj (fields : List (String × JsValue))
  | vheaders (get : String → Option JsValue)

/-- Optional-chained property access `v?.k`: property lookup on plain objects,
`undefined` on everything else. -/
def getField : JsValue → String → JsValue
  | .vobj fields, k =>
    match fields.find? (fun kv => kv.1 = k) with
    | some kv => kv.2
    | none => .vundefined
  | _, _ => .vundefined

/-- `a ?? b`: `b` when `a` is `null`/`undefined`, else `a`. -/
def jsCoalesce (a b : JsValue) : JsValue :=
  match a with
  | .vnull => b
  | .vundefined => b
  | v => v

/-- Is this value `null` or `undefined`? -/
def jsNullish : JsValue → Bool
  | .vnull => true
  | .vundefined => true
  | _ => false

/-! ## String primitives

The JavaScript string operations used by the engine (`trim`, `toLowerCase`,
splitting, substring search) are modelled by structurally recursive functions
over the character list of the string, so that all of them evaluate by kernel
reduction.  ASCII behaviour is what the engine relies on. -/

/-- `String.prototype.trim`: strip leading and trailing whitespace. -/
def jsTrim (s : String) : String :=
  String.mk (((s.data.dropWhile Char.isWhitespace).reverse.dropWhile
    Char.isWhitespace).reverse)

/-- `String.prototype.toLowerCase`. -/
def jsToLower (s : String) : String :=
  String.mk (s.data.map Char.toLower)

/-- Split a character list at every `'.'`. -/
def splitOnDot : List Char → List (List Char)
  | [] => [[]]
  | '.' :: rest => [] :: splitOnDot rest
  | c :: rest =>
    match splitOnDot rest with
    | h :: t => (c :: h) :: t
    | [] => [[c]]

/-- Does `s` start with `p`? -/
def leadsWith : List Char → List Char → Bool
  | [], _ => true
  | _ :: _, [] => false
  | p :: ps, c :: cs => p = c && leadsWith ps cs

/-- Does `s` contain `pat` as a contiguous run? -/
def containsChars : List Char → List Char → Bool
  | [], pat => pat.isEmpty
  | c :: rest, pat => leadsWith pat (c :: rest) || containsChars rest pat

/-! ## `Number()` conversion of strings

Model of the JavaScript `Number()` conversion applied to a string: leading and
trailing whitespace is ignored, the empty string converts to `0`, and
optionally signed decimal literals (`123`, `12.5`, `.5`, `7.`) convert to
their exact value.  Exponent, hexadecimal and `Infinity` forms are not needed
by the engine's callers modelled here and are conservatively mapped to `NaN`. -/

/-- Decimal digit list to its value, failing on a non-digit. -/
def digitsToNat? (l : List Char) : Option ℕ :=
  l.foldl
    (fun acc c =>
      match acc with
      | some a => if c.isDigit then some (a * 10 + (c.toNat - 48)) else none
      | none => none)
    (some 0)

/-- An unsigned decimal literal: digits with an optional fractional part. -/
def parseUnsignedDec (s : List Char) : Option ℚ :=
  match splitOnDot s with
  | [intPart] =>
    if intPart.length > 0 then (digitsToNat? intPart).map (fun n => (n : ℚ))
    else none
  | [intPart, fracPart] =>
    if intPart.length + fracPart.length > 0 then
      match digitsToNat? intPart, digitsToNat? fracPart with
      | some i, some f => some ((i : ℚ) + (f : ℚ) / (10 : ℚ) ^ fracPart.length)
      | _, _ => none
    else none
  | _ => none

/-- `Number(s)` for a string `s` (see the conventions above). -/
def jsNumberOfString (s : String) : JSNum :=
  let t := jsTrim s
  if t = "" then .num 0
  else
    match t.data with
    | '+' :: rest =>
      match parseUnsignedDec rest with
      | some q => .num q
      | none => .nan
    | '-' :: rest =>
      match parseUnsignedDec rest with
      | some q => .num (-q)
      | none => .nan
    | cs =>
      match parseUnsignedDec cs with
      | some q => .num q
      | none => .nan

/-! ## Error inspection helpers (retry.ts lines 51-103) -/

/-- A thrown JavaScript error: its plain-value view, plus whether it is an
`instanceof TypeError` (used by `defaultShouldRetry`). -/
structure JsError where
  val : JsValue
  isTypeError : Bool := false

/-- `isAbortLikeError` (retry.ts line 51). -/
def isAbortLikeError (e : JsValue) : Bool :=
  (match getField e "name" with | .vstr s => s = "AbortError" | _ => false) ||
  (match getField e "code" with | .vstr s => s = "ABORT_ERR" | _ => false) ||
  (match getField e "code" with | .vstr s => s = "ERR_CANCELED" | _ => false)

/-- `getStatus` (retry.ts line 60): `e?.response?.status ?? e?.status ??
e?.statusCode`, coercing strings through `Number()` and keeping finite
results only. -/
def getStatus (e : JsValue) : Option ℚ :=
  let s := jsCoalesce (getField (getField e "response") "status")
    (jsCoalesce (getField e "status") (getField e "statusCode"))
  let n : JSNum :=
    match s with
    | .vstr str => jsNumberOfString str
    | .vnum m => m
    | _ => .nan
  match n with
  | .num q => some q
  | _ => none

/-- `getCode` (retry.ts line 67). -/
def getCode (e : JsValue) : Option String :=
  match getField e "code" with
  | .vstr s => some s
  | _ => none

/-- `getMessage` (retry.ts line 73). -/
def getMessage (e : JsValue) : Option String :=
  match getField e "message" with
  | .vstr s => some s
  | _ => none

/-- `DEFAULT_RETRIABLE_STATUS` (retry.ts line 79). -/
def DEFAULT_RETRIABLE_STATUS : List ℚ := [408, 425, 429, 500, 502, 503, 504]

/-- `DEFAULT_RETRIABLE_CODES` (retry.ts line 80). -/
def DEFAULT_RETRIABLE_CODES : List String :=
  ["ECONNRESET", "ETIMEDOUT", "EAI_AGAIN", "ENOTFOUND", "ECONNREFUSED", "EPIPE"]

/-- Substring test: `s` contains `pat`. -/
def containsSub (s pat : String) : Bool :=
  containsChars s.data pat.data

/-- The `/network|fetch|timeout/i` message test (retry.ts line 100). -/
def networkMsgTest (m : String) : Bool :=
  let l := jsToLower m
  containsSub l "network" || containsSub l "fetch" || containsSub l "timeout"

/-! ## Contexts, events, configuration -/

/-- `RetryContext` (types.ts): the per-attempt snapshot passed to the task and
the retriability predicate.  The `AbortSignal` reference is modelled by its
presence (`hasSignal`); its time-varying `aborted` flag is read from the
oracle at each inspection point. -/
structure RetryContext where
  attempt : ℕ
  maxAttempts : ℕ
  startedAt : ℤ
  elapsedMs : ℕ
  hasSignal : Bool
deriving DecidableEq

/-- The `reason` field of a `RetryEvent`. -/
inductive RetryReason where
  | retryAfter
  | backoff
deriving DecidableEq

/-- `RetryEvent` (types.ts): the observation delivered to `onRetry`. -/
structure RetryEvent where
  error : JsError
  reason : RetryReason
  delayMs : ℕ
  nextAttempt : ℕ
  ctx : RetryContext

/-- `ShouldRetry` (types.ts): the retriability predicate.  The extra `Bool`
argument is the value of `ctx.signal?.aborted` observed at the moment the
predicate runs (always `false` when no signal is configured). -/
def ShouldRetry : Type :=
  JsError → RetryContext → Bool → Bool

/-- `retryAfterBodyUnit` values: `'seconds' | 'milliseconds' | false`. -/
inductive RABodyUnit where
  | seconds
  | milliseconds
  | disabled
deriving DecidableEq

/-- The `Jitter` option: `'full' | 'none'`. -/
inductive Jitter where
  | full
  | none
deriving DecidableEq

/-- `RetryOptions` (types.ts): the caller-supplied configuration.  `none`
models an absent (undefined) field.  The `signal` object is modelled by its
presence (`hasSignal`); `onRetry` needs no model because delivered events are
recorded on the trace. -/
structure RetryOptions where
  maxAttempts : Option JSNum := Option.none
  baseMs : Option JSNum := Option.none
  capMs : Option JSNum := Option.none
  factor : Option JSNum := Option.none
  jitter : Option Jitter := Option.none
  rng : Option (ℕ → JSNum) := Option.none
  hasSignal : Bool := false
  maxElapsedMs : Option JSNum := Option.none
  shouldRetry : Option ShouldRetry := Option.none
  respectRetryAfter : Option Bool := Option.none
  retryAfterHeaderName : Option String := Option.none
  retryAfterBodyUnit : Option RABodyUnit := Option.none
  wrapError : Option Bool := Option.none

/-- The fully populated configuration produced by `normalizeOptions`.
Numeric fields are finite after validation and therefore stored as plain
rationals; `maxAttempts` is a validated integer `≥ 1` and stored as a
natural number.  `shouldRetry = none` means the built-in
`defaultShouldRetry`; `rng = none` means `Math.random` (the oracle). -/
structure NOpts where
  maxAttempts : ℕ
  baseMs : ℚ
  capMs : ℚ
  factor : ℚ
  jitter : Jitter
  rng : Option (ℕ → JSNum)
  hasSignal : Bool
  maxElapsedMs : Option ℚ
  shouldRetry : Option ShouldRetry
  respectRetryAfter : Bool
  retryAfterHeaderName : String
  retryAfterBodyUnit : RABodyUnit
  wrapError : Bool

/-- `defaultShouldRetry` (retry.ts line 89). -/
def defaultShouldRetry : ShouldRetry := fun err ctx sigAborted =>
  if ctx.hasSignal && sigAborted then false
  else if isAbortLikeError err.val then false
  else
    match getStatus err.val with
    | some s => decide (s ∈ DEFAULT_RETRIABLE_STATUS)
    | Option.none =>
      match getCode err.val with
      | some c =>
        if c ∈ DEFAULT_RETRIABLE_CODES then true
        else
          if err.isTypeError &&
              (match getMessage err.val with
               | some m => decide (m ≠ "") && networkMsgTest m
               | Option.none => false) then true
          else true
      | Option.none =>
        if err.isTypeError &&
            (match getMessage err.val with
             | some m => decide (m ≠ "") && networkMsgTest m
             | Option.none => false) then true
        else true

/-! ## Option validation (retry.ts lines 26-49 and 216-263) -/

/-- `assertFiniteNonNegative` succeeds: absent, or finite and `≥ 0`. -/
def finiteNonNegOk : Option JSNum → Bool
  | Option.none => true
  | some (.num q) => decide (0 ≤ q)
  | some _ => false

/-- `assertFinitePositive` succeeds: absent, or finite and `> 0`. -/
def finitePosOk : Option JSNum → Bool
  | Option.none => true
  | some (.num q) => decide (0 < q)
  | some _ => false

/-- `assertValidMaxAttempts` succeeds: finite, `≥ 1` and an integer
(`Math.floor(n) === n`). -/
def maxAttemptsOk : JSNum → Bool
  | .num q => decide (1 ≤ q) && decide (q.den = 1)
  | _ => false

/-- Extract the rational from a finite `JSNum` (used only after
validation). -/
def jsToQ : JSNum → ℚ
  | .num q => q
  | _ => 0

/-- `normalizeOptions` (retry.ts line 216): fill defaults, then run the
assertions in source order, failing with the corresponding `RangeError`
message. -/
def normalizeOptions (options : RetryOptions) : Except String NOpts :=
  let maxAttemptsJ := options.maxAttempts.getD (.num 3)
  let baseMsJ := options.baseMs.getD (.num 200)
  let capMsJ := options.capMs.getD (.num 2000)
  let factorJ := options.factor.getD (.num 2)
  if !maxAttemptsOk maxAttemptsJ then
    .error "maxAttempts must be an integer >= 1"
  else if !finiteNonNegOk (some baseMsJ) then
    .error "baseMs must be a finite number >= 0 (or undefined)"
  else if !finiteNonNegOk (some capMsJ) then
    .error "capMs must be a finite number >= 0 (or undefined)"
  else if !finitePosOk (some factorJ) then
    .error "factor must be a finite number > 0 (or undefined)"
  else if !finiteNonNegOk options.maxElapsedMs then
    .error "maxElapsedMs must be a finite number >= 0 (or undefined)"
  else
    .ok
      { maxAttempts := (jsToQ maxAttemptsJ).num.toNat
        baseMs := jsToQ baseMsJ
        capMs := jsToQ capMsJ
        factor := jsToQ factorJ
        jitter := options.jitter.getD .full
        rng := options.rng
        hasSignal := options.hasSignal
        maxElapsedMs := options.maxElapsedMs.map jsToQ
        shouldRetry := options.shouldRetry
        respectRetryAfter := options.respectRetryAfter.getD true
        retryAfterHeaderName :=
          let n := jsTrim (options.retryAfterHeaderName.getD "retry-after")
          if n = "" then "retry-after" else n
        retryAfterBodyUnit := options.retryAfterBodyUnit.getD .disabled
        wrapError := options.wrapError.getD false }

/-! ## Header / body Retry-After extraction (retry.ts lines 148-198) -/

/-- Scan plain-object entries for the first usable value under a
case-insensitively matching key (string value, or array whose first element
is a string). -/
def headerScan (entries : List (String × JsValue)) (target : String) : Option String :=
  match entries with
  | [] => Option.none
  | (k, v) :: rest =>
    if jsToLower k = target then
      match v with
      | .vstr s => some s
      | .varr (.vstr s :: _) => some s
      | _ => headerScan rest target
    else headerScan rest target

/-- `getHeader` (retry.ts line 148).  Falsy or non-object containers yield
nothing; a fetch-style headers object is queried through its `get` accessor
(string results only); plain objects are scanned case-insensitively, arrays
through their index keys. -/
def getHeader (headers : JsValue) (name : String) : Option String :=
  match headers with
  | .vheaders get =>
    match get name with
    | some (.vstr v) => some v
    | _ => Option.none
  | .vobj fields => headerScan fields (jsToLower name)
  | .varr xs =>
    headerScan ((List.range xs.length).zip xs |>.map (fun p => (toString p.1, p.2)))
      (jsToLower name)
  | _ => Option.none

/-- `readRetryAfterBody` (retry.ts line 181): `e?.response?.data?.retry_after
?? e?.rawError?.retry_after ?? e?.data?.retry_after`. -/
def readRetryAfterBody (e : JsValue) : JsValue :=
  jsCoalesce (getField (getField (getField e "response") "data") "retry_after")
    (jsCoalesce (getField (getField e "rawError") "retry_after")
      (getField (getField e "data") "retry_after"))

/-- `parseRetryAfterBodyMs` (retry.ts line 186).  The `unit` argument is
`seconds` or `milliseconds` (the engine only calls this when body inspection
is enabled). -/
def parseRetryAfterBodyMs (value : JsValue) (unit : RABodyUnit) : Option ℕ :=
  if jsNullish value then Option.none
  else
    let n : JSNum :=
      match value with
      | .vnum m => m
      | .vstr s => jsNumberOfString (jsTrim s)
      | _ => .nan
    match n with
    | .num q =>
      some (if unit = .seconds then toIntMs (.num (q * 1000)) else toIntMs (.num q))
    | _ => Option.none

/-! ## Backoff and jitter (retry.ts lines 200-214) -/

/-- Arguments of `computeBackoffMs`. -/
structure BackoffArgs where
  baseMs : ℚ
  capMs : ℚ
  factor : ℚ

/-- `computeBackoffMs` (retry.ts line 200): `toIntMs(min(capMs, baseMs *
factor ** (attempt - 1)))`. -/
def computeBackoffMs (attempt : ℕ) (args : BackoffArgs) : ℕ :=
  let raw := args.baseMs * args.factor ^ (attempt - 1)
  let capped := min args.capMs raw
  toIntMs (.num capped)

/-- `applyFullJitter` (retry.ts line 209): clamp the draw into
`[0, 0.999999999]` (non-finite draws count as `0`) and floor the scaled
backoff. -/
def applyFullJitter (backoffMs : ℕ) (r : JSNum) : ℕ :=
  let x : ℚ := match r with | .num q => q | _ => 0
  let clamped := max 0 (min (999999999 / 1000000000 : ℚ) x)
  toIntMs (.num ⌊clamped * (backoffMs : ℚ)⌋)

/-! ## The retry loop state machine (retry.ts lines 105-146 and 265-369) -/

/-- One observable action of the engine. -/
inductive TraceItem where
  | invoke (ctx : RetryContext)
  | retryEvent (e : RetryEvent)
  | sleepStart (ms : ℕ)

/-- The host environment: successive `Date.now()` readings, `Math.random`
draws, `signal.aborted` reads, outcomes of the abort-vs-timer race inside
`sleep`, and `Date.parse`.  Each stream is consumed through its own counter
in `St`. -/
structure Oracle where
  times : ℕ → ℤ
  rng : ℕ → JSNum
  sigRead : ℕ → Bool
  sleepAbort : ℕ → Bool
  dateParse : String → JSNum

/-- Machine state: per-stream oracle counters plus the observable trace. -/
structure St where
  timeIdx : ℕ
  rngIdx : ℕ
  sigIdx : ℕ
  sleepIdx : ℕ
  trace : List TraceItem

/-- The initial machine state. -/
def initSt : St := ⟨0, 0, 0, 0, []⟩

/-- Append an observable action to the trace. -/
def emit (item : TraceItem) (st : St) : St :=
  { st with trace := st.trace ++ [item] }

/-- The result of one `retry()` invocation.  `taskError` is the original
thrown error propagated unchanged; the other error constructors are the
engine's own `AbortError`, `RangeError`, `RetryTimeoutError` and
`RetryExhaustedError` (errors.ts), with their metadata payloads.  `stuck` is
an artifact of the fuel-indexed presentation of the loop and is unreachable
from the entry point (the loop runs at most `maxAttempts` iterations and is
given exactly that much fuel). -/
inductive RetryOutcome (T : Type) where
  | ok (v : T)
  | taskError (e : JsError)
  | abortError
  | rangeError (msg : String)
  | timeoutError (attempts : ℕ) (elapsedMs : ℕ) (maxElapsedMs : ℚ) (cause : Option JsError)
  | exhaustedError (attempts : ℕ) (elapsedMs : ℕ) (maxAttempts : ℕ) (startedAt : ℤ)
      (cause : JsError)
  | stuck

/-- `parseRetryAfterHeaderMs` (retry.ts line 169): a finite `Number()` parse
is seconds; otherwise a finite `Date.parse` yields `date - now()`; otherwise
the header is unusable.  Consumes a `now()` reading in the date branch
only. -/
def parseRetryAfterHeaderMs (o : Oracle) (value : String) (st : St) : Option ℕ × St :=
  let trimmed := jsTrim value
  match jsNumberOfString trimmed with
  | .num q => (some (toIntMs (.num (q * 1000))), st)
  | _ =>
    match o.dateParse trimmed with
    | .num t =>
      (some (toIntMs (.num (t - (o.times st.timeIdx : ℚ)))),
        { st with timeIdx := st.timeIdx + 1 })
    | _ => (Option.none, st)

/-- The retry-hint extraction of the loop (retry.ts lines 322-343): only for
status exactly 429 with `respectRetryAfter`; the header is consulted first,
then (when enabled) the response body. -/
def retryAfterHintMs (o : Oracle) (opts : NOpts) (err : JsError) (st : St) :
    Option ℕ × St :=
  if opts.respectRetryAfter ∧ getStatus err.val = some 429 then
    let headers := getField (getField err.val "response") "headers"
    let fromHeader :=
      match getHeader headers opts.retryAfterHeaderName with
      | some h => parseRetryAfterHeaderMs o h st
      | Option.none => (Option.none, st)
    match fromHeader.1 with
    | some d => (some d, fromHeader.2)
    | Option.none =>
      if opts.retryAfterBodyUnit ≠ .disabled then
        (parseRetryAfterBodyMs (readRetryAfterBody err.val) opts.retryAfterBodyUnit,
          fromHeader.2)
      else (Option.none, fromHeader.2)
  else (Option.none, st)

/-- The delay planning of the loop (retry.ts lines 319-350): hint when
available (reason `retry-after`, used as-is), else exponential backoff with
optional full jitter (reason `backoff`).  A random draw is consumed only on
the full-jitter backoff path. -/
def planDelay (o : Oracle) (opts : NOpts) (err : JsError) (attempt : ℕ) (st : St) :
    RetryReason × ℕ × St :=
  let hint := retryAfterHintMs o opts err st
  match hint.1 with
  | some d => (.retryAfter, d, hint.2)
  | Option.none =>
    let backoff := computeBackoffMs attempt ⟨opts.baseMs, opts.capMs, opts.factor⟩
    if opts.jitter = .full then
      let r := (opts.rng.getD o.rng) hint.2.rngIdx
      (.backoff, applyFullJitter backoff r, { hint.2 with rngIdx := hint.2.rngIdx + 1 })
    else (.backoff, backoff, hint.2)

/-- `sleep` (retry.ts line 111), returning whether it aborted: zero-duration
sleeps re-check the signal before and after yielding; positive sleeps with a
signal fail fast on an already-aborted signal and otherwise race the timer
against an abort notification (the race outcome comes from the
oracle). -/
def sleep (o : Oracle) (ms : ℕ) (hasSignal : Bool) (st : St) : Bool × St :=
  if ms = 0 then
    if hasSignal then
      if o.sigRead st.sigIdx then (true, { st with sigIdx := st.sigIdx + 1 })
      else if o.sigRead (st.sigIdx + 1) then (true, { st with sigIdx := st.sigIdx + 2 })
      else (false, { st with sigIdx := st.sigIdx + 2 })
    else (false, st)
  else
    if !hasSignal then (false, st)
    else if o.sigRead st.sigIdx then (true, { st with sigIdx := st.sigIdx + 1 })
    else
      (o.sleepAbort st.sleepIdx,
        { st with sigIdx := st.sigIdx + 1, sleepIdx := st.sleepIdx + 1 })

/-- Event emission and sleeping (retry.ts lines 356-366): build the
`RetryEvent`, deliver it, start the sleep; an aborted sleep terminates the
loop with `AbortError`, otherwise the loop continues. -/
def emitAndSleep {T : Type} (o : Oracle) (opts : NOpts) (err : JsError)
    (reason : RetryReason) (delayMs : ℕ) (uctx : RetryContext) (attempt : ℕ)
    (st : St) : Option (RetryOutcome T) × St :=
  let ev : RetryEvent :=
    { error := err, reason := reason, delayMs := delayMs, nextAttempt := attempt + 1,
      ctx := uctx }
  let st := emit (.retryEvent ev) st
  let st := emit (.sleepStart delayMs) st
  let slept := sleep o delayMs opts.hasSignal st
  if slept.1 then (some .abortError, slept.2) else (Option.none, slept.2)

/-- The `catch` block of the loop (retry.ts lines 295-366), entered with the
post-increment attempt number.  Returns `some` outcome to terminate or `none`
to continue with the next attempt. -/
def handleFailure {T : Type} (o : Oracle) (opts : NOpts) (startedAt : ℤ)
    (attempt : ℕ) (ctx : RetryContext) (err : JsError) (st : St) :
    Option (RetryOutcome T) × St :=
  if isAbortLikeError err.val then (some (.taskError err), st)
  else
    let elapsedMs := toIntMs (.num ((o.times st.timeIdx - startedAt : ℤ) : ℚ))
    let st := { st with timeIdx := st.timeIdx + 1 }
    if attempt ≥ opts.maxAttempts then
      (some
        (if opts.wrapError then
          .exhaustedError attempt elapsedMs opts.maxAttempts startedAt err
        else .taskError err), st)
    else
      let sigNow := opts.hasSignal && o.sigRead st.sigIdx
      let st := if opts.hasSignal then { st with sigIdx := st.sigIdx + 1 } else st
      if sigNow then (some .abortError, st)
      else
        let uctx := { ctx with elapsedMs := elapsedMs }
        let sig2 := opts.hasSignal && o.sigRead st.sigIdx
        let st := if opts.hasSignal then { st with sigIdx := st.sigIdx + 1 } else st
        let retriable := (opts.shouldRetry.getD defaultShouldRetry) err uctx sig2
        if !retriable then
          (some
            (if opts.wrapError then
              .exhaustedError attempt elapsedMs opts.maxAttempts startedAt err
            else .taskError err), st)
        else
          let planned := planDelay o opts err attempt st
          let reason := planned.1
          let delayMs := planned.2.1
          let st := planned.2.2
          match opts.maxElapsedMs with
          | some m =>
            if ((elapsedMs + delayMs : ℕ) : ℚ) > m then
              (some (.timeoutError attempt elapsedMs m (some err)), st)
            else emitAndSleep o opts err reason delayMs uctx attempt st
          | Option.none => emitAndSleep o opts err reason delayMs uctx attempt st

/-- The `RetryContext` built at the top of an iteration (retry.ts line 285),
with the given (already incremented) attempt number; `tIdx` is the position of
the `now()` reading used for its `elapsedMs`. -/
def mkCtx (o : Oracle) (opts : NOpts) (startedAt : ℤ) (attempt1 : ℕ) (tIdx : ℕ) :
    RetryContext :=
  { attempt := attempt1, maxAttempts := opts.maxAttempts, startedAt := startedAt
    elapsedMs := toIntMs (.num ((o.times tIdx - startedAt : ℤ) : ℚ))
    hasSignal := opts.hasSignal }

/-- Context construction and task invocation (retry.ts lines 283-294). -/
def invokePhase {T : Type} (o : Oracle) (opts : NOpts)
    (task : RetryContext → Except JsError T) (startedAt : ℤ) (attempt : ℕ)
    (st : St) : Option (RetryOutcome T) × St :=
  let attempt1 := attempt + 1
  let ctx := mkCtx o opts startedAt attempt1 st.timeIdx
  let st := { st with timeIdx := st.timeIdx + 1 }
  let st := emit (.invoke ctx) st
  match task ctx with
  | .ok v => (some (.ok v), st)
  | .error err => handleFailure o opts startedAt attempt1 ctx err st

/-- One iteration of the loop body (retry.ts lines 276-367): pre-attempt
cancellation check, pre-attempt budget check, then invoke and handle the
result. -/
def retryStep {T : Type} (o : Oracle) (opts : NOpts)
    (task : RetryContext → Except JsError T) (startedAt : ℤ) (attempt : ℕ)
    (st : St) : Option (RetryOutcome T) × St :=
  let sig0 := opts.hasSignal && o.sigRead st.sigIdx
  let st := if opts.hasSignal then { st with sigIdx := st.sigIdx + 1 } else st
  if sig0 then (some .abortError, st)
  else
    let elapsed0 := toIntMs (.num ((o.times st.timeIdx - startedAt : ℤ) : ℚ))
    let st := { st with timeIdx := st.timeIdx + 1 }
    match opts.maxElapsedMs with
    | some m =>
      if (elapsed0 : ℚ) > m then
        (some (.timeoutError attempt elapsed0 m Option.none), st)
      else invokePhase o opts task startedAt attempt st
    | Option.none => invokePhase o opts task startedAt attempt st

/-- The `for (;;)` loop (retry.ts line 275), indexed by fuel.  Each iteration
either terminates with an outcome or advances to the next attempt; the entry
point supplies `maxAttempts` fuel, which the attempt-ceiling check makes
sufficient. -/
def retryLoop {T : Type} (o : Oracle) (opts : NOpts)
    (task : RetryContext → Except JsError T) (startedAt : ℤ) :
    ℕ → ℕ → St → RetryOutcome T × St
  | 0, _, st => (.stuck, st)
  | fuel + 1, attempt, st =>
    let stepped := retryStep o opts task startedAt attempt st
    match stepped.1 with
    | some r => (r, stepped.2)
    | Option.none => retryLoop o opts task startedAt fuel (attempt + 1) stepped.2

/-- `retry` (retry.ts line 265): normalize the configuration (failing with a
`RangeError` before any attempt), record the start time, run the loop from
attempt `0`. -/
def retry {T : Type} (o : Oracle) (task : RetryContext → Except JsError T)
    (options : RetryOptions) : RetryOutcome T × St :=
  match normalizeOptions options with
  | .error msg => (.rangeError msg, initSt)
  | .ok opts =>
    let startedAt := o.times 0
    retryLoop o opts task startedAt opts.maxAttempts 0 { initSt with timeIdx := 1 }

/-! ## The factory (createRetry.ts) -/

/-- The shallow merge `{ ...defaultOptions, ...options }`: a per-call field,
when present, replaces the default wholesale.  (An own property explicitly
set to `undefined` is modelled as absent.) -/
def mergeOptions (defaults options : RetryOptions) : RetryOptions :=
  { maxAttempts := options.maxAttempts <|> defaults.maxAttempts
    baseMs := options.baseMs <|> defaults.baseMs
    capMs := options.capMs <|> defaults.capMs
    factor := options.factor <|> defaults.factor
    jitter := options.jitter <|> defaults.jitter
    rng := options.rng <|> defaults.rng
    hasSignal := options.hasSignal || defaults.hasSignal
    maxElapsedMs := options.maxElapsedMs <|> defaults.maxElapsedMs
    shouldRetry := options.shouldRetry <|> defaults.shouldRetry
    respectRetryAfter := options.respectRetryAfter <|> defaults.respectRetryAfter
    retryAfterHeaderName := options.retryAfterHeaderName <|> defaults.retryAfterHeaderName
    retryAfterBodyUnit := options.retryAfterBodyUnit <|> defaults.retryAfterBodyUnit
    wrapError := options.wrapError <|> defaults.wrapError }

/-- `createRetry` (createRetry.ts line 19): pre-bind default options; the
returned function shallow-merges per-call options over them and calls
`retry`. -/
def createRetry {T : Type} (defaultOptions : RetryOptions) :
    Oracle → (RetryContext → Except JsError T) → RetryOptions → RetryOutcome T × St :=
  fun o task options => retry o task (mergeOptions defaultOptions options)

/-! ## Trace observations -/

/-- The contexts passed to the task, in invocation order. -/
def invokedCtxs (tr : List TraceItem) : List RetryContext :=
  tr.filterMap (fun item => match item with | .invoke c => some c | _ => Option.none)

/-- The delays of the delivered retry events, in order. -/
def eventDelays (tr : List TraceItem) : List ℕ :=
  tr.filterMap (fun item => match item with | .retryEvent e => some e.delayMs | _ => Option.none)

/-- The reasons of the delivered retry events, in order. -/
def eventReasons (tr : List TraceItem) : List RetryReason :=
  tr.filterMap (fun item => match item with | .retryEvent e => some e.reason | _ => Option.none)

/-- The trace contains a sleep start. -/
def hasSleep (tr : List TraceItem) : Bool :=
  tr.any (fun item => match item with | .sleepStart _ => true | _ => false)

/-- Every retry event in the trace is immediately followed by the start of a
sleep of exactly the event's delay (in particular no event is the last
item). -/
def eventsOk : List TraceItem → Bool
  | [] => true
  | .retryEvent e :: rest =>
    match rest with
    | .sleepStart d :: _ => decide (d = e.delayMs) && eventsOk rest
    | _ => false
  | _ :: rest => eventsOk rest

/-- The last trace item is a retry event. -/
def lastIsEvent : List TraceItem → Bool
  | [] => false
  | [.retryEvent _] => true
  | [_] => false
  | _ :: rest => lastIsEvent rest

lemma lastIsEvent_cons_cons (x y : TraceItem) (l : List TraceItem) :
    lastIsEvent (x :: y :: l) = lastIsEvent (y :: l) := by
  cases x <;> rfl

lemma eventsOk_event_sleep (e : RetryEvent) (d : ℕ) (rest : List TraceItem) :
    eventsOk (.retryEvent e :: .sleepStart d :: rest) =
      (decide (d = e.delayMs) && eventsOk (.sleepStart d :: rest)) := by
  rfl

lemma eventsOk_invoke (c : RetryContext) (rest : List TraceItem) :
    eventsOk (.invoke c :: rest) = eventsOk rest := by
  rfl

lemma eventsOk_sleep (d : ℕ) (rest : List TraceItem) :
    eventsOk (.sleepStart d :: rest) = eventsOk rest := by
  rfl

lemma eventsOk_append (t Δ : List TraceItem) (h : lastIsEvent t = false) :
    eventsOk (t ++ Δ) = (eventsOk t && eventsOk Δ) := by
  induction t with
  | nil => simp [eventsOk]
  | cons x rest ih =>
    cases x with
    | retryEvent e =>
      cases rest with
      | nil => simp [lastIsEvent] at h
      | cons y rs =>
        rw [lastIsEvent_cons_cons] at h
        cases y with
        | sleepStart d =>
          rw [List.cons_append, List.cons_append, eventsOk_event_sleep,
            ← List.cons_append, ih h, eventsOk_event_sleep, Bool.and_assoc]
        | invoke c =>
          rw [List.cons_append, List.cons_append]
          show false = (false && eventsOk Δ)
          simp
        | retryEvent e2 =>
          rw [List.cons_append, List.cons_append]
          show false = (false && eventsOk Δ)
          simp
    | invoke c =>
      have hr : lastIsEvent rest = false := by
        cases rest with
        | nil => rfl
        | cons y rs => rw [lastIsEvent_cons_cons] at h; exact h
      rw [List.cons_append, eventsOk_invoke, eventsOk_invoke, ih hr]
    | sleepStart d =>
      have hr : lastIsEvent rest = false := by
        cases rest with
        | nil => rfl
        | cons y rs => rw [lastIsEvent_cons_cons] at h; exact h
      rw [List.cons_append, eventsOk_sleep, eventsOk_sleep, ih hr]

/-! ## Trace-preservation lemmas for the planner and sleeper -/

lemma sleep_trace (o : Oracle) (ms : ℕ) (hs : Bool) (st : St) :
    ((sleep o ms hs st).2).trace = st.trace := by
  unfold sleep
  repeat' split
  all_goals rfl

lemma parseRetryAfterHeaderMs_trace (o : Oracle) (v : String) (st : St) :
    ((parseRetryAfterHeaderMs o v st).2).trace = st.trace := by
  simp only [parseRetryAfterHeaderMs]
  split
  · rfl
  · split <;> rfl

lemma retryAfterHintMs_trace (o : Oracle) (opts : NOpts) (err : JsError) (st : St) :
    ((retryAfterHintMs o opts err st).2).trace = st.trace := by
  simp only [retryAfterHintMs]
  split
  · rcases hh : getHeader (getField (getField err.val "response") "headers")
      opts.retryAfterHeaderName with _ | h
    · simp only [hh]
      split <;> rfl
    · simp only [hh]
      have hp := parseRetryAfterHeaderMs_trace o h st
      rcases hph : parseRetryAfterHeaderMs o h st with ⟨p, st'⟩
      rw [hph] at hp
      cases p with
      | none =>
        dsimp only
        split <;> exact hp
      | some d => exact hp
  · rfl

lemma planDelay_trace (o : Oracle) (opts : NOpts) (err : JsError) (a : ℕ) (st : St) :
    ((planDelay o opts err a st).2.2).trace = st.trace := by
  simp only [planDelay]
  have hh := retryAfterHintMs_trace o opts err st
  rcases hm : retryAfterHintMs o opts err st with ⟨p, st'⟩
  rw [hm] at hh
  cases p with
  | none =>
    dsimp only
    split
    · exact hh
    · exact hh
  | some d => exact hh

/-! ## Shape of one loop iteration -/

lemma emitAndSleep_trace {T : Type} (o : Oracle) (opts : NOpts) (err : JsError)
    (reason : RetryReason) (d : ℕ) (uctx : RetryContext) (a : ℕ) (st : St) :
    ((emitAndSleep (T := T) o opts err reason d uctx a st).2).trace =
      st.trace ++ [.retryEvent ⟨err, reason, d, a + 1, uctx⟩, .sleepStart d] := by
  simp only [emitAndSleep, emit]
  split <;>
    · rw [sleep_trace]
      simp

lemma emitAndSleep_shape {T : Type} (o : Oracle) (opts : NOpts) (err : JsError)
    (reason : RetryReason) (d : ℕ) (uctx : RetryContext) (a : ℕ) (st2 : St)
    (base : List TraceItem) (hb : st2.trace = base) :
    ∃ Δ, ((emitAndSleep (T := T) o opts err reason d uctx a st2).2).trace = base ++ Δ ∧
      (Δ = [] ∨ ∃ e : RetryEvent, Δ = [.retryEvent e, .sleepStart e.delayMs]) :=
  ⟨[.retryEvent ⟨err, reason, d, a + 1, uctx⟩, .sleepStart d],
    by rw [emitAndSleep_trace, hb],
    Or.inr ⟨⟨err, reason, d, a + 1, uctx⟩, rfl⟩⟩

lemma handleFailure_shape {T : Type} (o : Oracle) (opts : NOpts) (startedAt : ℤ)
    (a : ℕ) (ctx : RetryContext) (err : JsError) (st : St) :
    ∃ Δ, ((handleFailure (T := T) o opts startedAt a ctx err st).2).trace = st.trace ++ Δ ∧
      (Δ = [] ∨ ∃ e : RetryEvent, Δ = [.retryEvent e, .sleepStart e.delayMs]) := by
  simp only [handleFailure]
  repeat' split
  all_goals first
    | (refine ⟨[], ?_, Or.inl rfl⟩
       simp [planDelay_trace]
       done)
    | (refine emitAndSleep_shape o opts err _ _ _ a _ st.trace ?_
       simp [planDelay_trace]
       done)

lemma invokePhase_shape {T : Type} (o : Oracle) (opts : NOpts)
    (task : RetryContext → Except JsError T) (startedAt : ℤ) (attempt : ℕ) (st : St) :
    ∃ Δ c, ((invokePhase o opts task startedAt attempt st).2).trace = st.trace ++ Δ ∧
      (Δ = [.invoke c] ∨
        ∃ e : RetryEvent, Δ = [.invoke c, .retryEvent e, .sleepStart e.delayMs]) ∧
      c.attempt = attempt + 1 := by
  simp only [invokePhase, emit]
  split
  · exact ⟨[.invoke (mkCtx o opts startedAt (attempt + 1) st.timeIdx)],
      mkCtx o opts startedAt (attempt + 1) st.timeIdx, by simp, Or.inl rfl, rfl⟩
  · rename_i err heq
    obtain ⟨Δ', h', hcase⟩ := handleFailure_shape (T := T) o opts startedAt (attempt + 1)
      (mkCtx o opts startedAt (attempt + 1) st.timeIdx) err
      { st with timeIdx := st.timeIdx + 1
                trace := st.trace ++ [.invoke (mkCtx o opts startedAt (attempt + 1) st.timeIdx)] }
    rcases hcase with h0 | ⟨e, he⟩
    · subst h0
      exact ⟨[.invoke (mkCtx o opts startedAt (attempt + 1) st.timeIdx)],
        mkCtx o opts startedAt (attempt + 1) st.timeIdx, by rw [h']; simp, Or.inl rfl, rfl⟩
    · subst he
      exact ⟨[.invoke (mkCtx o opts startedAt (attempt + 1) st.timeIdx),
          .retryEvent e, .sleepStart e.delayMs],
        mkCtx o opts startedAt (attempt + 1) st.timeIdx, by rw [h']; simp, Or.inr ⟨e, rfl⟩, rfl⟩

lemma invokePhase_shape' {T : Type} (o : Oracle) (opts : NOpts)
    (task : RetryContext → Except JsError T) (startedAt : ℤ) (attempt : ℕ)
    (st2 st : St) (h2 : st2.trace = st.trace) :
    ∃ Δ, ((invokePhase o opts task startedAt attempt st2).2).trace = st.trace ++ Δ ∧
      (Δ = [] ∨ ∃ c : RetryContext, c.attempt = attempt + 1 ∧
        (Δ = [.invoke c] ∨
          ∃ e : RetryEvent, Δ = [.invoke c, .retryEvent e, .sleepStart e.delayMs])) := by
  obtain ⟨Δ, c, hΔ, hcase, hc⟩ := invokePhase_shape o opts task startedAt attempt st2
  exact ⟨Δ, by rw [hΔ, h2], Or.inr ⟨c, hc, hcase⟩⟩

lemma retryStep_shape {T : Type} (o : Oracle) (opts : NOpts)
    (task : RetryContext → Except JsError T) (startedAt : ℤ) (attempt : ℕ) (st : St) :
    ∃ Δ, ((retryStep o opts task startedAt attempt st).2).trace = st.trace ++ Δ ∧
      (Δ = [] ∨ ∃ c : RetryContext, c.attempt = attempt + 1 ∧
        (Δ = [.invoke c] ∨
          ∃ e : RetryEvent, Δ = [.invoke c, .retryEvent e, .sleepStart e.delayMs])) := by
  simp only [retryStep]
  repeat' split
  all_goals first
    | (refine ⟨[], ?_, Or.inl rfl⟩
       simp
       done)
    | (refine invokePhase_shape' o opts task startedAt attempt _ st ?_
       simp
       done)

lemma handleFailure_continue {T : Type} (o : Oracle) (opts : NOpts) (startedAt : ℤ)
    (a : ℕ) (ctx : RetryContext) (err : JsError) (st : St)
    (h : (handleFailure (T := T) o opts startedAt a ctx err st).1 = Option.none) :
    a < opts.maxAttempts := by
  simp only [handleFailure] at h
  repeat' split at h
  all_goals first
    | omega
    | simp at h

lemma invokePhase_continue {T : Type} (o : Oracle) (opts : NOpts)
    (task : RetryContext → Except JsError T) (startedAt : ℤ) (attempt : ℕ) (st : St)
    (h : (invokePhase o opts task startedAt attempt st).1 = Option.none) :
    attempt + 1 < opts.maxAttempts := by
  simp only [invokePhase, emit] at h
  split at h
  · simp at h
  · exact handleFailure_continue o opts startedAt (attempt + 1) _ _ _ h

lemma retryStep_continue {T : Type} (o : Oracle) (opts : NOpts)
    (task : RetryContext → Except JsError T) (startedAt : ℤ) (attempt : ℕ) (st : St)
    (h : (retryStep o opts task startedAt attempt st).1 = Option.none) :
    attempt + 1 < opts.maxAttempts := by
  simp only [retryStep] at h
  repeat' split at h
  all_goals first
    | exact invokePhase_continue o opts task startedAt attempt _ h
    | simp at h

/-! ## Loop invariants -/

lemma lastIsEvent_append (a b : List TraceItem) (ha : lastIsEvent a = false)
    (hb : lastIsEvent b = false) : lastIsEvent (a ++ b) = false := by
  induction a with
  | nil => simpa using hb
  | cons x rest ih =>
    cases rest with
    | nil =>
      cases b with
      | nil => simpa using ha
      | cons y l =>
        rw [List.cons_append, List.nil_append, lastIsEvent_cons_cons]
        exact hb
    | cons y rs =>
      rw [lastIsEvent_cons_cons] at ha
      rw [List.cons_append, List.cons_append, lastIsEvent_cons_cons, ← List.cons_append]
      exact ih ha

/-- The master invariant of the fuel-indexed loop: the loop only appends to
the trace; it appends at most `fuel` task invocations; every appended
invocation carries an attempt number in `(attempt, maxAttempts]`; and every
appended retry event is immediately followed by its sleep. -/
lemma retryLoop_invariant {T : Type} (o : Oracle) (opts : NOpts)
    (task : RetryContext → Except JsError T) (startedAt : ℤ) :
    ∀ (fuel attempt : ℕ) (st : St), attempt < opts.maxAttempts →
      ∃ Δ, ((retryLoop o opts task startedAt fuel attempt st).2).trace = st.trace ++ Δ ∧
        (invokedCtxs Δ).length ≤ fuel ∧
        (∀ c ∈ invokedCtxs Δ, attempt + 1 ≤ c.attempt ∧ c.attempt ≤ opts.maxAttempts) ∧
        eventsOk Δ = true ∧ lastIsEvent Δ = false := by
  intro fuel
  induction fuel with
  | zero =>
    intro attempt st _
    exact ⟨[], by simp [retryLoop], by simp [invokedCtxs], by simp [invokedCtxs], rfl, rfl⟩
  | succ fuel ih =>
    intro attempt st hlt
    obtain ⟨Δs, hs, hcase⟩ := retryStep_shape o opts task startedAt attempt st
    have hΔs :
        (invokedCtxs Δs).length ≤ 1 ∧
        (∀ c ∈ invokedCtxs Δs, c.attempt = attempt + 1) ∧
        eventsOk Δs = true ∧ lastIsEvent Δs = false := by
      rcases hcase with h0 | ⟨c, hc, h1 | ⟨e, h2⟩⟩
      · subst h0
        exact ⟨by simp [invokedCtxs], by simp [invokedCtxs], rfl, rfl⟩
      · subst h1
        refine ⟨by simp [invokedCtxs], ?_, rfl, rfl⟩
        intro c' hc'
        simp [invokedCtxs] at hc'
        subst hc'
        exact hc
      · subst h2
        refine ⟨by simp [invokedCtxs], ?_, by simp [eventsOk], rfl⟩
        intro c' hc'
        simp [invokedCtxs] at hc'
        subst hc'
        exact hc
    simp only [retryLoop]
    rcases hstep : (retryStep o opts task startedAt attempt st).1 with _ | r
    · have hcont := retryStep_continue o opts task startedAt attempt st hstep
      obtain ⟨Δr, hr, hlen, hmem, hok, hlast⟩ :=
        ih (attempt + 1) ((retryStep o opts task startedAt attempt st).2) hcont
      dsimp only
      refine ⟨Δs ++ Δr, ?_, ?_, ?_, ?_, ?_⟩
      · rw [hr, hs, List.append_assoc]
      · rw [invokedCtxs, List.filterMap_append]
        have h1 := hΔs.1
        rw [invokedCtxs] at h1 hlen
        simp only [List.length_append]
        omega
      · intro c hc
        rw [invokedCtxs, List.filterMap_append] at hc
        rcases List.mem_append.mp hc with hmem1 | hmem2
        · have h1 := hΔs.2.1 c hmem1
          omega
        · have h2 := hmem c hmem2
          omega
      · rw [eventsOk_append _ _ hΔs.2.2.2, hΔs.2.2.1, hok]
        rfl
      · exact lastIsEvent_append _ _ hΔs.2.2.2 hlast
    · dsimp only
      refine ⟨Δs, hs, ?_, ?_, hΔs.2.2.1, hΔs.2.2.2⟩
      · exact le_trans hΔs.1 (by omega)
      · intro c hc
        have := hΔs.2.1 c hc
        omega

/-! ## Validation facts -/

lemma maxAttemptsOk_pos (J : JSNum) (h : maxAttemptsOk J = true) :
    1 ≤ (jsToQ J).num.toNat := by
  cases J with
  | num q =>
    simp only [maxAttemptsOk, Bool.and_eq_true, decide_eq_true_eq] at h
    obtain ⟨h1, hden⟩ := h
    have hq : ((q.num : ℚ)) = q := by
      rw [← Rat.num_div_den q, hden]
      simp
    have : (1 : ℚ) ≤ (q.num : ℚ) := by rw [hq]; exact_mod_cast h1
    have : (1 : ℤ) ≤ q.num := by exact_mod_cast this
    simp only [jsToQ]
    omega
  | nan => simp [maxAttemptsOk] at h
  | inf => simp [maxAttemptsOk] at h
  | negInf => simp [maxAttemptsOk] at h

lemma normalizeOptions_maxAttempts_pos (options : RetryOptions) (opts : NOpts)
    (h : normalizeOptions options = .ok opts) : 1 ≤ opts.maxAttempts := by
  simp only [normalizeOptions] at h
  repeat' split at h
  all_goals first
    | (simp at h
       done)
    | (injection h with h2
       subst h2
       apply maxAttemptsOk_pos
       simp_all)

/-! ## Concrete data for witnesses -/

/-- A constant host environment: the clock stays at `0`, the random source
returns `0`, the signal never aborts, and date parsing always fails. -/
def constOracle : Oracle :=
  ⟨fun _ => 0, fun _ => .num 0, fun _ => false, fun _ => false, fun _ => .nan⟩

/-! ## Claim C1 -/

/-- **C1.** For every valid configuration and every task, the retry loop
invokes the task at most `maxAttempts` times, and every `RetryContext` passed
to the task has `attempt` between `1` and `maxAttempts` inclusive (1-indexed:
the first call is attempt 1). -/
theorem retry_invocations_bounded {T : Type} (o : Oracle)
    (task : RetryContext → Except JsError T) (options : RetryOptions) (opts : NOpts)
    (h : normalizeOptions options = .ok opts) :
    (invokedCtxs ((retry o task options).2).trace).length ≤ opts.maxAttempts ∧
      ∀ c ∈ invokedCtxs ((retry o task options).2).trace,
        1 ≤ c.attempt ∧ c.attempt ≤ opts.maxAttempts := by
  have hpos := normalizeOptions_maxAttempts_pos options opts h
  obtain ⟨Δ, hΔ, hlen, hmem, _, _⟩ :=
    retryLoop_invariant o opts task (o.times 0) opts.maxAttempts 0
      { initSt with timeIdx := 1 } (by omega)
  simp only [retry, h]
  rw [hΔ]
  have hbase : ({ initSt with timeIdx := 1 } : St).trace = [] := rfl
  rw [hbase, List.nil_append]
  refine ⟨hlen, ?_⟩
  intro c hc
  have := hmem c hc
  omega

/-- Witness for C1 at the default configuration with an immediately
succeeding task. -/
theorem retry_invocations_bounded_witness :
    ∃ opts, normalizeOptions ({} : RetryOptions) = .ok opts ∧
      ((invokedCtxs ((retry constOracle (fun _ => Except.ok (0 : ℕ)) {}).2).trace).length ≤
          opts.maxAttempts ∧
        ∀ c ∈ invokedCtxs ((retry constOracle (fun _ => Except.ok (0 : ℕ)) {}).2).trace,
          1 ≤ c.attempt ∧ c.attempt ≤ opts.maxAttempts) :=
  ⟨_, rfl, retry_invocations_bounded constOracle _ {} _ rfl⟩

/-! ## Claim C5 -/

/-- When the pre-attempt checks pass and the task succeeds, the iteration
terminates with the task's value after exactly one invocation and nothing
else on the trace. -/
lemma retryStep_first_success {T : Type} (o : Oracle) (opts : NOpts)
    (task : RetryContext → Except JsError T) (startedAt : ℤ) (attempt : ℕ) (st : St)
    (v : T)
    (hsig : opts.hasSignal = false ∨ o.sigRead st.sigIdx = false)
    (hbud : ∀ m, opts.maxElapsedMs = some m →
      ((toIntMs (.num ((o.times st.timeIdx - startedAt : ℤ) : ℚ)) : ℚ)) ≤ m)
    (htask : task (mkCtx o opts startedAt (attempt + 1) (st.timeIdx + 1)) = .ok v) :
    (retryStep o opts task startedAt attempt st).1 = some (.ok v) ∧
      ((retryStep o opts task startedAt attempt st).2).trace =
        st.trace ++ [.invoke (mkCtx o opts startedAt (attempt + 1) (st.timeIdx + 1))] := by
  have hsig0 : (opts.hasSignal && o.sigRead st.sigIdx) = false := by
    rcases hsig with h1 | h2
    · simp [h1]
    · simp [h2]
  simp only [retryStep, hsig0, Bool.false_eq_true, if_false, invokePhase, emit]
  cases hs : opts.hasSignal with
  | false =>
    cases hm : opts.maxElapsedMs with
    | none =>
      simp only [hm, hs, Bool.false_eq_true, eq_self_iff_true, if_true, if_false]
      rw [htask]
      exact ⟨rfl, by simp⟩
    | some m =>
      have hle := hbud m hm
      simp only [hm, hs, Bool.false_eq_true, eq_self_iff_true, if_true, if_false]
      rw [if_neg (not_lt.mpr hle)]
      rw [htask]
      exact ⟨rfl, by simp⟩
  | true =>
    cases hm : opts.maxElapsedMs with
    | none =>
      simp only [hm, hs, Bool.false_eq_true, eq_self_iff_true, if_true, if_false]
      rw [htask]
      exact ⟨rfl, by simp⟩
    | some m =>
      have hle := hbud m hm
      simp only [hm, hs, Bool.false_eq_true, eq_self_iff_true, if_true, if_false]
      rw [if_neg (not_lt.mpr hle)]
      rw [htask]
      exact ⟨rfl, by simp⟩

/-- **C5.** A `RetryEvent` is delivered to the `onRetry` hook only immediately
before the corresponding sleep (every event on the trace is directly followed
by the start of a sleep of the event's delay, so no event is ever emitted on
the terminal exhaustion / non-retriable / budget-exceeded / cancellation
paths, which append no event); and when the first attempt succeeds (the
pre-attempt checks passing), no retry event is observed and the loop
completes with the task's value without sleeping. -/
theorem retry_events_only_before_sleep {T : Type} (o : Oracle)
    (task : RetryContext → Except JsError T) (options : RetryOptions) (v : T) :
    eventsOk ((retry o task options).2).trace = true ∧
      (∀ opts, normalizeOptions options = .ok opts →
        (opts.hasSignal = false ∨ o.sigRead 0 = false) →
        (∀ m, opts.maxElapsedMs = some m →
          ((toIntMs (.num ((o.times 1 - o.times 0 : ℤ) : ℚ)) : ℚ)) ≤ m) →
        (∀ c, c.attempt = 1 → task c = .ok v) →
        (retry o task options).1 = .ok v ∧
          eventDelays ((retry o task options).2).trace = [] ∧
          hasSleep ((retry o task options).2).trace = false) := by
  constructor
  · cases hnorm : normalizeOptions options with
    | error msg => simp [retry, hnorm, initSt, eventsOk]
    | ok opts =>
      have hpos := normalizeOptions_maxAttempts_pos options opts hnorm
      obtain ⟨Δ, hΔ, _, _, hok, _⟩ :=
        retryLoop_invariant o opts task (o.times 0) opts.maxAttempts 0
          { initSt with timeIdx := 1 } (by omega)
      simp only [retry, hnorm]
      rw [hΔ]
      have hbase : ({ initSt with timeIdx := 1 } : St).trace = [] := rfl
      rw [hbase, List.nil_append]
      exact hok
  · intro opts hnorm hsig hbud htask
    have hpos := normalizeOptions_maxAttempts_pos options opts hnorm
    obtain ⟨k, hk⟩ : ∃ k, opts.maxAttempts = k + 1 := ⟨opts.maxAttempts - 1, by omega⟩
    obtain ⟨hstep, htr⟩ := retryStep_first_success o opts task (o.times 0) 0
      { initSt with timeIdx := 1 } v (by simpa using hsig) (by simpa using hbud)
      (htask _ rfl)
    simp only [retry, hnorm, hk, retryLoop]
    rw [hstep]
    refine ⟨rfl, ?_, ?_⟩
    · rw [htr]
      rfl
    · rw [htr]
      rfl

/-- Witness for C5: the default configuration, constant clock, and a task
succeeding on its first attempt — the run returns the value with no retry
event and no sleep. -/
theorem retry_events_only_before_sleep_witness :
    (retry constOracle (fun _ => (Except.ok 7 : Except JsError ℕ)) {}).1 = .ok 7 ∧
      eventDelays ((retry constOracle (fun _ => (Except.ok 7 : Except JsError ℕ)) {}).2).trace
        = [] ∧
      hasSleep ((retry constOracle (fun _ => (Except.ok 7 : Except JsError ℕ)) {}).2).trace
        = false :=
  (retry_events_only_before_sleep constOracle _ {} 7).2 _ rfl (Or.inl rfl)
    (fun _ hm => by cases hm) (fun _ _ => rfl)

/-! ## Claim C9 -/

/-- **C9.** For an error that is not cancellation-like, observed with a
non-aborted signal, the default retriability classifier returns retriable iff:
when the error carries an HTTP-like status (direct, nested under `response`,
or string-coercible), the status is in `{408, 425, 429, 500, 502, 503, 504}`
(a status outside the set is never retried, whatever codes or messages the
error also carries); when no status is present the answer is always retriable
(recognized system codes retry, and unclassified errors default to
retriable). -/
theorem defaultShouldRetry_characterization (err : JsError) (ctx : RetryContext)
    (hab : isAbortLikeError err.val = false) :
    defaultShouldRetry err ctx false =
      (match getStatus err.val with
       | some s => decide (s ∈ DEFAULT_RETRIABLE_STATUS)
       | Option.none => true) := by
  simp only [defaultShouldRetry, hab, Bool.and_false, Bool.false_eq_true, if_false]
  cases hst : getStatus err.val with
  | some s => rfl
  | none =>
    cases hc : getCode err.val with
    | some c => simp [ite_self]
    | none => simp [ite_self]

/-- Witness for C9: an error with status 400 and a retriable system code is a
hard stop (not retried). -/
theorem defaultShouldRetry_characterization_witness :
    isAbortLikeError
        (JsValue.vobj [("status", .vnum (.num 400)), ("code", .vstr "ECONNRESET")]) = false ∧
      defaultShouldRetry
        ⟨.vobj [("status", .vnum (.num 400)), ("code", .vstr "ECONNRESET")], false⟩
        ⟨1, 3, 0, 0, false⟩ false = false := by
  refine ⟨by decide, ?_⟩
  rw [defaultShouldRetry_characterization _ _ (by decide)]
  decide

/-! ## Claim C8 -/

/-- **C8.** The function returned by `createRetry(defaults)`, called with no
per-call overrides, behaves identically to calling `retry` directly with the
same configuration; with per-call overrides it behaves as `retry` on the
shallow merge, where every per-call field that is present replaces the
default wholesale (in particular the structured `rng` and `shouldRetry`
values are replaced, never combined). -/
theorem createRetry_shallow_merge {T : Type} (o : Oracle)
    (task : RetryContext → Except JsError T) (d ov : RetryOptions) :
    createRetry d o task {} = retry o task d ∧
      createRetry d o task ov = retry o task (mergeOptions d ov) ∧
      (mergeOptions d ov).maxAttempts = (ov.maxAttempts <|> d.maxAttempts) ∧
      (mergeOptions d ov).baseMs = (ov.baseMs <|> d.baseMs) ∧
      (mergeOptions d ov).capMs = (ov.capMs <|> d.capMs) ∧
      (mergeOptions d ov).factor = (ov.factor <|> d.factor) ∧
      (mergeOptions d ov).jitter = (ov.jitter <|> d.jitter) ∧
      (mergeOptions d ov).rng = (ov.rng <|> d.rng) ∧
      (mergeOptions d ov).hasSignal = (ov.hasSignal || d.hasSignal) ∧
      (mergeOptions d ov).maxElapsedMs = (ov.maxElapsedMs <|> d.maxElapsedMs) ∧
      (mergeOptions d ov).shouldRetry = (ov.shouldRetry <|> d.shouldRetry) ∧
      (mergeOptions d ov).respectRetryAfter = (ov.respectRetryAfter <|> d.respectRetryAfter) ∧
      (mergeOptions d ov).retryAfterHeaderName =
        (ov.retryAfterHeaderName <|> d.retryAfterHeaderName) ∧
      (mergeOptions d ov).retryAfterBodyUnit = (ov.retryAfterBodyUnit <|> d.retryAfterBodyUnit) ∧
      (mergeOptions d ov).wrapError = (ov.wrapError <|> d.wrapError) :=
  ⟨rfl, rfl, rfl, rfl, rfl, rfl, rfl, rfl, rfl, rfl, rfl, rfl, rfl, rfl, rfl⟩

/-! ## Claim C2 -/

/-- The claim's notion of an invalid supplied configuration: `maxAttempts`
supplied but not an integer `≥ 1`; or `baseMs`, `capMs` or `maxElapsedMs`
supplied but not finite and `≥ 0`; or `factor` supplied but not finite and
`> 0`. -/
def invalidRetryOptions (o : RetryOptions) : Bool :=
  (match o.maxAttempts with | some j => !maxAttemptsOk j | Option.none => false) ||
  (match o.baseMs with | some j => !finiteNonNegOk (some j) | Option.none => false) ||
  (match o.capMs with | some j => !finiteNonNegOk (some j) | Option.none => false) ||
  (match o.maxElapsedMs with | some j => !finiteNonNegOk (some j) | Option.none => false) ||
  (match o.factor with | some j => !finitePosOk (some j) | Option.none => false)

lemma normalizeOptions_ok_valid (options : RetryOptions) (opts : NOpts)
    (h : normalizeOptions options = .ok opts) :
    invalidRetryOptions options = false := by
  simp only [normalizeOptions] at h
  repeat' split at h
  all_goals first
    | (simp at h
       done)
    | (rename_i c1 c2 c3 c4 c5 chdr
       simp only [Bool.not_eq_true, Bool.not_eq_false] at c1 c2 c3 c4 c5
       have e1 : (match options.maxAttempts with
           | some j => !maxAttemptsOk j | Option.none => false) = false := by
         cases hma : options.maxAttempts with
         | none => rfl
         | some j => rw [hma] at c1; simp only [Option.getD_some] at c1; simp [c1]
       have e2 : (match options.baseMs with
           | some j => !finiteNonNegOk (some j) | Option.none => false) = false := by
         cases hma : options.baseMs with
         | none => rfl
         | some j => rw [hma] at c2; simp only [Option.getD_some] at c2; simp [c2]
       have e3 : (match options.capMs with
           | some j => !finiteNonNegOk (some j) | Option.none => false) = false := by
         cases hma : options.capMs with
         | none => rfl
         | some j => rw [hma] at c3; simp only [Option.getD_some] at c3; simp [c3]
       have e4 : (match options.maxElapsedMs with
           | some j => !finiteNonNegOk (some j) | Option.none => false) = false := by
         cases hma : options.maxElapsedMs with
         | none => rfl
         | some j => rw [hma] at c5; simp [c5]
       have e5 : (match options.factor with
           | some j => !finitePosOk (some j) | Option.none => false) = false := by
         cases hma : options.factor with
         | none => rfl
         | some j => rw [hma] at c4; simp only [Option.getD_some] at c4; simp [c4]
       simp [invalidRetryOptions, e1, e2, e3, e4, e5])

/-- **C2.** If the supplied configuration is invalid (`maxAttempts` not an
integer `≥ 1`, or `baseMs`/`capMs`/`maxElapsedMs` present but not finite and
`≥ 0`, or `factor` present but not finite and `> 0`), `retry` fails with a
range-violation error before the loop starts — the trace is empty, so the
task is never invoked, independent of the task's behaviour. -/
theorem retry_invalid_options {T : Type} (o : Oracle)
    (task : RetryContext → Except JsError T) (options : RetryOptions)
    (h : invalidRetryOptions options = true) :
    ((retry o task options).2).trace = [] ∧
      ∃ msg, (retry o task options).1 = .rangeError msg := by
  cases hn : normalizeOptions options with
  | error msg =>
    simp [retry, hn, initSt]
  | ok opts =>
    rw [normalizeOptions_ok_valid options opts hn] at h
    cases h

/-- Witness for C2: `maxAttempts = 0` is rejected before the task runs. -/
theorem retry_invalid_options_witness :
    invalidRetryOptions { maxAttempts := some (.num 0) } = true ∧
      (((retry constOracle (fun _ => (Except.ok 0 : Except JsError ℕ))
            { maxAttempts := some (.num 0) }).2).trace = [] ∧
        ∃ msg, (retry constOracle (fun _ => (Except.ok 0 : Except JsError ℕ))
            { maxAttempts := some (.num 0) }).1 = .rangeError msg) :=
  ⟨by decide, retry_invalid_options constOracle _ _ (by decide)⟩

/-! ## Claim C6 -/

/-- When the pre-attempt checks pass and the task throws a cancellation-like
error, the iteration rethrows that exact error (no wrapping, no
classification, no attempt-ceiling or budget substitution), whatever
`wrapError`, `shouldRetry`, `maxAttempts` and the budget are. -/
lemma retryStep_abortlike {T : Type} (o : Oracle) (opts : NOpts)
    (task : RetryContext → Except JsError T) (startedAt : ℤ) (attempt : ℕ) (st : St)
    (err : JsError)
    (hsig : opts.hasSignal = false ∨ o.sigRead st.sigIdx = false)
    (hbud : ∀ m, opts.maxElapsedMs = some m →
      ((toIntMs (.num ((o.times st.timeIdx - startedAt : ℤ) : ℚ)) : ℚ)) ≤ m)
    (htask : task (mkCtx o opts startedAt (attempt + 1) (st.timeIdx + 1)) = .error err)
    (hab : isAbortLikeError err.val = true) :
    (retryStep o opts task startedAt attempt st).1 = some (.taskError err) ∧
      ((retryStep o opts task startedAt attempt st).2).trace =
        st.trace ++ [.invoke (mkCtx o opts startedAt (attempt + 1) (st.timeIdx + 1))] := by
  have hsig0 : (opts.hasSignal && o.sigRead st.sigIdx) = false := by
    rcases hsig with h1 | h2
    · simp [h1]
    · simp [h2]
  simp only [retryStep, hsig0, Bool.false_eq_true, if_false, invokePhase, emit]
  cases hs : opts.hasSignal with
  | false =>
    cases hm : opts.maxElapsedMs with
    | none =>
      simp only [hm, hs, Bool.false_eq_true, eq_self_iff_true, if_true, if_false]
      rw [htask]
      simp only [handleFailure, hab, if_true]
      simp
    | some m =>
      have hle := hbud m hm
      simp only [hm, hs, Bool.false_eq_true, eq_self_iff_true, if_true, if_false]
      rw [if_neg (not_lt.mpr hle)]
      rw [htask]
      simp only [handleFailure, hab, if_true]
      simp
  | true =>
    cases hm : opts.maxElapsedMs with
    | none =>
      simp only [hm, hs, Bool.false_eq_true, eq_self_iff_true, if_true, if_false]
      rw [htask]
      simp only [handleFailure, hab, if_true]
      simp
    | some m =>
      have hle := hbud m hm
      simp only [hm, hs, Bool.false_eq_true, eq_self_iff_true, if_true, if_false]
      rw [if_neg (not_lt.mpr hle)]
      rw [htask]
      simp only [handleFailure, hab, if_true]
      simp

/-- **C6.** An error thrown by the task that is cancellation-like (name
`AbortError`, or code `ABORT_ERR` or `ERR_CANCELED`) is rethrown by `retry`
as that exact error object: it is never wrapped (whatever `wrapError` is),
the retriability classifier is never consulted (whatever `shouldRetry` is —
both live inside the arbitrary configuration), and no attempt-ceiling or
time-budget outcome replaces it — the run ends after the single invocation
with the original error. -/
theorem retry_abortlike_rethrown {T : Type} (o : Oracle)
    (task : RetryContext → Except JsError T) (options : RetryOptions) (opts : NOpts)
    (err : JsError)
    (hnorm : normalizeOptions options = .ok opts)
    (hsig : opts.hasSignal = false ∨ o.sigRead 0 = false)
    (hbud : ∀ m, opts.maxElapsedMs = some m →
      ((toIntMs (.num ((o.times 1 - o.times 0 : ℤ) : ℚ)) : ℚ)) ≤ m)
    (htask : ∀ c, task c = .error err)
    (hab : isAbortLikeError err.val = true) :
    (retry o task options).1 = .taskError err ∧
      ((retry o task options).2).trace = [.invoke (mkCtx o opts (o.times 0) 1 2)] := by
  have hpos := normalizeOptions_maxAttempts_pos options opts hnorm
  obtain ⟨k, hk⟩ : ∃ k, opts.maxAttempts = k + 1 := ⟨opts.maxAttempts - 1, by omega⟩
  obtain ⟨h1, h2⟩ := retryStep_abortlike o opts task (o.times 0) 0
    { initSt with timeIdx := 1 } err (by simpa using hsig) (by simpa using hbud)
    (htask _) hab
  simp only [retry, hnorm, hk, retryLoop]
  rw [h1]
  refine ⟨rfl, ?_⟩
  rw [h2]
  simp [initSt]

/-- Witness for C6: an error named `AbortError` escapes unwrapped even with
`wrapError = true`. -/
theorem retry_abortlike_rethrown_witness :
    ∃ opts, normalizeOptions ({ wrapError := some true } : RetryOptions) = .ok opts ∧
      ((retry constOracle
          (fun _ => (Except.error ⟨.vobj [("name", .vstr "AbortError")], false⟩ :
            Except JsError ℕ))
          { wrapError := some true }).1 =
          .taskError ⟨.vobj [("name", .vstr "AbortError")], false⟩ ∧
        ((retry constOracle
            (fun _ => (Except.error ⟨.vobj [("name", .vstr "AbortError")], false⟩ :
              Except JsError ℕ))
            { wrapError := some true }).2).trace =
          [.invoke (mkCtx constOracle opts (constOracle.times 0) 1 2)]) :=
  ⟨_, rfl, retry_abortlike_rethrown constOracle _ _ _ _ rfl (Or.inl rfl)
    (fun _ hm => by cases hm) (fun _ => rfl) (by decide)⟩

/-! ## Claims C4 and C10: the Retry-After header path -/

/-- When the pre-checks pass and the task fails (no signal configured), the
iteration reduces to the failure handler on the state extended by the
invocation record. -/
lemma retryStep_fail_nosig {T : Type} (o : Oracle) (opts : NOpts)
    (task : RetryContext → Except JsError T) (startedAt : ℤ) (attempt : ℕ) (st : St)
    (err : JsError)
    (hs : opts.hasSignal = false)
    (hbud : ∀ m, opts.maxElapsedMs = some m →
      ((toIntMs (.num ((o.times st.timeIdx - startedAt : ℤ) : ℚ)) : ℚ)) ≤ m)
    (htask : task (mkCtx o opts startedAt (attempt + 1) (st.timeIdx + 1)) = .error err) :
    retryStep o opts task startedAt attempt st =
      handleFailure o opts startedAt (attempt + 1)
        (mkCtx o opts startedAt (attempt + 1) (st.timeIdx + 1)) err
        { st with timeIdx := st.timeIdx + 1 + 1
                  trace := st.trace ++
                    [.invoke (mkCtx o opts startedAt (attempt + 1) (st.timeIdx + 1))] } := by
  have hsig0 : (opts.hasSignal && o.sigRead st.sigIdx) = false := by simp [hs]
  simp only [retryStep, hsig0, Bool.false_eq_true, if_false, invokePhase, emit]
  cases hm : opts.maxElapsedMs with
  | none =>
    simp only [hm, hs, Bool.false_eq_true, eq_self_iff_true, if_true, if_false]
    rw [htask]
  | some m =>
    have hle := hbud m hm
    simp only [hm, hs, Bool.false_eq_true, eq_self_iff_true, if_true, if_false]
    rw [if_neg (not_lt.mpr hle)]
    rw [htask]

/-- The delay planner on the header hint path: a usable numeric header value
is used as-is (seconds, converted to milliseconds), with reason
`retry-after`. -/
lemma planDelay_retryAfter (o : Oracle) (opts : NOpts) (err : JsError) (a : ℕ) (st : St)
    (h : String) (n : ℚ)
    (hresp : opts.respectRetryAfter = true)
    (hstatus : getStatus err.val = some 429)
    (hhdr : getHeader (getField (getField err.val "response") "headers")
      opts.retryAfterHeaderName = some h)
    (hparse : jsNumberOfString (jsTrim h) = .num n) :
    planDelay o opts err a st = (.retryAfter, toIntMs (.num (n * 1000)), st) := by
  simp only [planDelay, retryAfterHintMs, hresp, hstatus, hhdr, parseRetryAfterHeaderMs,
    hparse, and_self, if_true, eq_self_iff_true]

/-- The failure handler on the header hint path: the retry event is emitted
with reason `retry-after` and the header-derived delay (no jitter, whatever
`jitter` and `rng` are), immediately followed by the sleep. -/
lemma handleFailure_retryAfter {T : Type} (o : Oracle) (opts : NOpts) (startedAt : ℤ)
    (a : ℕ) (ctx : RetryContext) (err : JsError) (st2 : St) (h : String) (n : ℚ)
    (hs : opts.hasSignal = false)
    (hbudn : opts.maxElapsedMs = Option.none)
    (hab : isAbortLikeError err.val = false)
    (hlt : a < opts.maxAttempts)
    (hsr : opts.shouldRetry = Option.none)
    (hresp : opts.respectRetryAfter = true)
    (hstatus : getStatus err.val = some 429)
    (hhdr : getHeader (getField (getField err.val "response") "headers")
      opts.retryAfterHeaderName = some h)
    (hparse : jsNumberOfString (jsTrim h) = .num n) :
    ∃ uctx, (handleFailure (T := T) o opts startedAt a ctx err st2).1 = Option.none ∧
      ((handleFailure (T := T) o opts startedAt a ctx err st2).2).trace =
        st2.trace ++
          [.retryEvent ⟨err, .retryAfter, toIntMs (.num (n * 1000)), a + 1, uctx⟩,
           .sleepStart (toIntMs (.num (n * 1000)))] := by
  have hret : ∀ c, defaultShouldRetry err c false = true := by
    intro c
    rw [defaultShouldRetry_characterization err c hab, hstatus]
    decide
  simp only [handleFailure, hab, Bool.false_eq_true, if_false, hs, Bool.false_and,
    eq_self_iff_true, if_true, hsr, Option.getD_none, hbudn]
  rw [if_neg (by omega : ¬ a ≥ opts.maxAttempts)]
  simp only [hret, Bool.not_true, Bool.false_eq_true, if_false]
  rw [planDelay_retryAfter o opts err a _ h n hresp hstatus hhdr hparse]
  simp only [emitAndSleep, emit]
  refine ⟨{ ctx with
      elapsedMs := toIntMs (.num ((o.times st2.timeIdx - startedAt : ℤ) : ℚ)) }, ?_, ?_⟩ <;>
    · by_cases hD : toIntMs (.num (n * 1000)) = 0 <;>
        simp [sleep, hD, hs, sleep_trace]

/-- **C4.** With `respectRetryAfter` enabled, when the failing error's status
is exactly 429 and the configured retry-after header (matched
case-insensitively by `getHeader`) holds a string whose trimmed value parses
as the finite number `n`, the scheduled retry event has reason `retry-after`
and delay `toIntMs (n × 1000)` — `n` seconds converted to milliseconds and
truncated to a non-negative integer — with no jitter applied: the
configuration's `jitter` and `rng` are arbitrary and the random source is
never consulted. -/
theorem retry_respects_retryAfter {T : Type} (o : Oracle) (opts : NOpts)
    (task : RetryContext → Except JsError T) (startedAt : ℤ) (attempt : ℕ) (st : St)
    (err : JsError) (h : String) (n : ℚ)
    (hs : opts.hasSignal = false)
    (hbudn : opts.maxElapsedMs = Option.none)
    (htask : ∀ c, task c = .error err)
    (hab : isAbortLikeError err.val = false)
    (hlt : attempt + 1 < opts.maxAttempts)
    (hsr : opts.shouldRetry = Option.none)
    (hresp : opts.respectRetryAfter = true)
    (hstatus : getStatus err.val = some 429)
    (hhdr : getHeader (getField (getField err.val "response") "headers")
      opts.retryAfterHeaderName = some h)
    (hparse : jsNumberOfString (jsTrim h) = .num n) :
    ∃ c uctx,
      (retryStep o opts task startedAt attempt st).1 = Option.none ∧
      ((retryStep o opts task startedAt attempt st).2).trace =
        st.trace ++
          [.invoke c,
           .retryEvent ⟨err, .retryAfter, toIntMs (.num (n * 1000)), attempt + 1 + 1, uctx⟩,
           .sleepStart (toIntMs (.num (n * 1000)))] := by
  rw [retryStep_fail_nosig o opts task startedAt attempt st err hs
    (fun m hm => by rw [hbudn] at hm; cases hm) (htask _)]
  obtain ⟨uctx, h1, h2⟩ := handleFailure_retryAfter o opts startedAt (attempt + 1)
    (mkCtx o opts startedAt (attempt + 1) (st.timeIdx + 1)) err _ h n
    hs hbudn hab hlt hsr hresp hstatus hhdr hparse
  refine ⟨mkCtx o opts startedAt (attempt + 1) (st.timeIdx + 1), uctx, h1, ?_⟩
  rw [h2]
  simp

/-- Witness for C4: a 429 error carrying `Retry-After: 2` schedules a
retry-after event of 2000 ms under full jitter. -/
theorem retry_respects_retryAfter_witness :
    (∃ c uctx,
      (retryStep constOracle
          { maxAttempts := 3, baseMs := 200, capMs := 2000, factor := 2, jitter := .full,
            rng := Option.none, hasSignal := false, maxElapsedMs := Option.none,
            shouldRetry := Option.none, respectRetryAfter := true,
            retryAfterHeaderName := "retry-after", retryAfterBodyUnit := .disabled,
            wrapError := false }
          (fun _ => (Except.error ⟨.vobj [("status", .vnum (.num 429)),
            ("response", .vobj [("headers", .vobj [("Retry-After", .vstr "2")])])], false⟩ :
              Except JsError ℕ))
          0 0 initSt).1 = Option.none ∧
      ((retryStep constOracle
          { maxAttempts := 3, baseMs := 200, capMs := 2000, factor := 2, jitter := .full,
            rng := Option.none, hasSignal := false, maxElapsedMs := Option.none,
            shouldRetry := Option.none, respectRetryAfter := true,
            retryAfterHeaderName := "retry-after", retryAfterBodyUnit := .disabled,
            wrapError := false }
          (fun _ => (Except.error ⟨.vobj [("status", .vnum (.num 429)),
            ("response", .vobj [("headers", .vobj [("Retry-After", .vstr "2")])])], false⟩ :
              Except JsError ℕ))
          0 0 initSt).2).trace =
        initSt.trace ++
          [.invoke c,
           .retryEvent ⟨⟨.vobj [("status", .vnum (.num 429)),
             ("response", .vobj [("headers", .vobj [("Retry-After", .vstr "2")])])], false⟩,
             .retryAfter, toIntMs (.num ((2 : ℚ) * 1000)), 0 + 1 + 1, uctx⟩,
           .sleepStart (toIntMs (.num ((2 : ℚ) * 1000)))]) ∧
      toIntMs (.num ((2 : ℚ) * 1000)) = 2000 := by
  refine ⟨?_, by with_unfolding_all decide⟩
  exact retry_respects_retryAfter constOracle _ _ 0 0 initSt _ "2" 2 rfl rfl
    (fun _ => rfl) (by decide) (by decide) rfl rfl (by decide) (by decide)
    (by with_unfolding_all decide)

/-- **C10.** With `respectRetryAfter` enabled, a 429 failure whose
retry-after header value is an empty or whitespace-only string is not
ignored: the value parses as the finite number 0, so the scheduled retry
event has reason `retry-after` and delay 0 ms, overriding the exponential
backoff computation entirely (the random source is never consulted). -/
theorem retry_emptyHeader_zeroDelay {T : Type} (o : Oracle) (opts : NOpts)
    (task : RetryContext → Except JsError T) (startedAt : ℤ) (attempt : ℕ) (st : St)
    (err : JsError) (h : String)
    (hs : opts.hasSignal = false)
    (hbudn : opts.maxElapsedMs = Option.none)
    (htask : ∀ c, task c = .error err)
    (hab : isAbortLikeError err.val = false)
    (hlt : attempt + 1 < opts.maxAttempts)
    (hsr : opts.shouldRetry = Option.none)
    (hresp : opts.respectRetryAfter = true)
    (hstatus : getStatus err.val = some 429)
    (hhdr : getHeader (getField (getField err.val "response") "headers")
      opts.retryAfterHeaderName = some h)
    (htrim : jsTrim h = "") :
    ∃ c uctx,
      (retryStep o opts task startedAt attempt st).1 = Option.none ∧
      ((retryStep o opts task startedAt attempt st).2).trace =
        st.trace ++
          [.invoke c,
           .retryEvent ⟨err, .retryAfter, 0, attempt + 1 + 1, uctx⟩,
           .sleepStart 0] := by
  have hparse : jsNumberOfString (jsTrim h) = .num 0 := by
    rw [htrim]
    rfl
  have h0 : toIntMs (.num ((0 : ℚ) * 1000)) = 0 := by
    with_unfolding_all decide
  obtain ⟨c, uctx, h1, h2⟩ := retry_respects_retryAfter o opts task startedAt attempt st
    err h 0 hs hbudn htask hab hlt hsr hresp hstatus hhdr hparse
  rw [h0] at h2
  exact ⟨c, uctx, h1, h2⟩

/-- Witness for C10: a whitespace-only `retry-after` header value yields a
zero-delay retry-after event. -/
theorem retry_emptyHeader_zeroDelay_witness :
    ∃ c uctx,
      (retryStep constOracle
          { maxAttempts := 3, baseMs := 200, capMs := 2000, factor := 2, jitter := .full,
            rng := Option.none, hasSignal := false, maxElapsedMs := Option.none,
            shouldRetry := Option.none, respectRetryAfter := true,
            retryAfterHeaderName := "retry-after", retryAfterBodyUnit := .disabled,
            wrapError := false }
          (fun _ => (Except.error ⟨.vobj [("status", .vnum (.num 429)),
            ("response", .vobj [("headers", .vobj [("retry-after", .vstr "  ")])])], false⟩ :
              Except JsError ℕ))
          0 0 initSt).1 = Option.none ∧
      ((retryStep constOracle
          { maxAttempts := 3, baseMs := 200, capMs := 2000, factor := 2, jitter := .full,
            rng := Option.none, hasSignal := false, maxElapsedMs := Option.none,
            shouldRetry := Option.none, respectRetryAfter := true,
            retryAfterHeaderName := "retry-after", retryAfterBodyUnit := .disabled,
            wrapError := false }
          (fun _ => (Except.error ⟨.vobj [("status", .vnum (.num 429)),
            ("response", .vobj [("headers", .vobj [("retry-after", .vstr "  ")])])], false⟩ :
              Except JsError ℕ))
          0 0 initSt).2).trace =
        initSt.trace ++
          [.invoke c,
           .retryEvent ⟨⟨.vobj [("status", .vnum (.num 429)),
             ("response", .vobj [("headers", .vobj [("retry-after", .vstr "  ")])])], false⟩,
             .retryAfter, 0, 0 + 1 + 1, uctx⟩,
           .sleepStart 0] :=
  retry_emptyHeader_zeroDelay constOracle _ _ 0 0 initSt _ "  " rfl rfl
    (fun _ => rfl) (by decide) (by decide) rfl rfl (by decide) (by decide) (by decide)

/-! ## Claim C7: time-budget enforcement -/

/-- The delay planner on the plain backoff path without jitter: no hint (the
status is absent) and `jitter = none` yield the capped exponential backoff
unchanged, with reason `backoff`. -/
lemma planDelay_backoff_nojitter (o : Oracle) (opts : NOpts) (err : JsError) (a : ℕ)
    (st : St)
    (hstatus : getStatus err.val = Option.none)
    (hjit : opts.jitter = Jitter.none) :
    planDelay o opts err a st =
      (.backoff, computeBackoffMs a ⟨opts.baseMs, opts.capMs, opts.factor⟩, st) := by
  simp only [planDelay, retryAfterHintMs, hstatus, hjit]
  simp

/-- The failure handler when the pre-sleep budget check trips: the run ends
with a budget-exceeded error carrying the triggering error as cause, and
nothing (no event, no sleep) is appended to the trace. -/
lemma handleFailure_budget_presleep {T : Type} (o : Oracle) (opts : NOpts)
    (startedAt : ℤ) (a : ℕ) (ctx : RetryContext) (err : JsError) (st2 : St) (m : ℚ)
    (hs : opts.hasSignal = false)
    (hbud : opts.maxElapsedMs = some m)
    (hab : isAbortLikeError err.val = false)
    (hlt : a < opts.maxAttempts)
    (hsr : opts.shouldRetry = Option.none)
    (hstatus : getStatus err.val = Option.none)
    (hjit : opts.jitter = Jitter.none)
    (hexc : ((toIntMs (.num ((o.times st2.timeIdx - startedAt : ℤ) : ℚ)) +
        computeBackoffMs a ⟨opts.baseMs, opts.capMs, opts.factor⟩ : ℕ) : ℚ) > m) :
    (handleFailure (T := T) o opts startedAt a ctx err st2).1 =
        some (.timeoutError a
          (toIntMs (.num ((o.times st2.timeIdx - startedAt : ℤ) : ℚ))) m (some err)) ∧
      ((handleFailure (T := T) o opts startedAt a ctx err st2).2).trace = st2.trace := by
  have hret : ∀ c, defaultShouldRetry err c false = true := by
    intro c
    rw [defaultShouldRetry_characterization err c hab, hstatus]
  simp only [handleFailure, hab, Bool.false_eq_true, if_false, hs, Bool.false_and,
    eq_self_iff_true, if_true, hsr, Option.getD_none, hbud]
  rw [if_neg (by omega : ¬ a ≥ opts.maxAttempts)]
  simp only [hret, Bool.not_true, Bool.false_eq_true, if_false]
  rw [planDelay_backoff_nojitter o opts err a _ hstatus hjit]
  rw [if_pos hexc]
  exact ⟨rfl, rfl⟩

/-- The pre-attempt budget check (retry.ts line 279): an already-exceeded
budget terminates the iteration with a budget-exceeded error reporting the
attempts completed so far, without invoking the task. -/
lemma retryStep_budget_preattempt {T : Type} (o : Oracle) (opts : NOpts)
    (task : RetryContext → Except JsError T) (startedAt : ℤ) (attempt : ℕ) (st : St)
    (m : ℚ)
    (hsig : opts.hasSignal = false ∨ o.sigRead st.sigIdx = false)
    (hbud : opts.maxElapsedMs = some m)
    (hgt : ((toIntMs (.num ((o.times st.timeIdx - startedAt : ℤ) : ℚ)) : ℚ)) > m) :
    (retryStep o opts task startedAt attempt st).1 =
        some (.timeoutError attempt
          (toIntMs (.num ((o.times st.timeIdx - startedAt : ℤ) : ℚ))) m Option.none) ∧
      ((retryStep o opts task startedAt attempt st).2).trace = st.trace := by
  have hsig0 : (opts.hasSignal && o.sigRead st.sigIdx) = false := by
    rcases hsig with h1 | h2
    · simp [h1]
    · simp [h2]
  simp only [retryStep, hsig0, Bool.false_eq_true, if_false]
  cases hs2 : opts.hasSignal with
  | false =>
    simp only [hs2, Bool.false_eq_true, eq_self_iff_true, if_true, if_false, hbud]
    rw [if_pos hgt]
    exact ⟨rfl, rfl⟩
  | true =>
    simp only [hs2, Bool.false_eq_true, eq_self_iff_true, if_true, if_false, hbud]
    rw [if_pos hgt]
    exact ⟨rfl, rfl⟩

/-- **C7.** The `maxElapsedMs` budget is enforced at two points.  Before each
attempt: if the elapsed time already exceeds the budget, `retry` fails with a
budget-exceeded error and, on the very first check, reports zero completed
attempts — the task is never invoked (empty trace).  Before each sleep: if
`elapsedMs + delayMs` would exceed the budget, the iteration fails with a
budget-exceeded error carrying the triggering task error as its cause, and
the sleep never starts (only the invocation is on the trace — no event, no
sleep). -/
theorem retry_budget_enforced {T : Type} :
    (∀ (o : Oracle) (task : RetryContext → Except JsError T) (options : RetryOptions)
        (opts : NOpts) (m : ℚ),
      normalizeOptions options = .ok opts →
      opts.maxElapsedMs = some m →
      (opts.hasSignal = false ∨ o.sigRead 0 = false) →
      ((toIntMs (.num ((o.times 1 - o.times 0 : ℤ) : ℚ)) : ℚ)) > m →
      (retry o task options).1 =
          .timeoutError 0 (toIntMs (.num ((o.times 1 - o.times 0 : ℤ) : ℚ))) m
            Option.none ∧
        ((retry o task options).2).trace = []) ∧
    (∀ (o : Oracle) (opts : NOpts) (task : RetryContext → Except JsError T)
        (startedAt : ℤ) (attempt : ℕ) (st : St) (err : JsError) (m : ℚ),
      opts.hasSignal = false →
      opts.maxElapsedMs = some m →
      (∀ c, task c = .error err) →
      isAbortLikeError err.val = false →
      attempt + 1 < opts.maxAttempts →
      opts.shouldRetry = Option.none →
      getStatus err.val = Option.none →
      opts.jitter = Jitter.none →
      ((toIntMs (.num ((o.times st.timeIdx - startedAt : ℤ) : ℚ)) : ℚ)) ≤ m →
      ((toIntMs (.num ((o.times (st.timeIdx + 1 + 1) - startedAt : ℤ) : ℚ)) +
          computeBackoffMs (attempt + 1) ⟨opts.baseMs, opts.capMs, opts.factor⟩ : ℕ) : ℚ)
        > m →
      (retryStep o opts task startedAt attempt st).1 =
          some (.timeoutError (attempt + 1)
            (toIntMs (.num ((o.times (st.timeIdx + 1 + 1) - startedAt : ℤ) : ℚ))) m
            (some err)) ∧
        ∃ c, ((retryStep o opts task startedAt attempt st).2).trace =
          st.trace ++ [.invoke c]) := by
  constructor
  · intro o task options opts m hnorm hbud hsig hgt
    have hpos := normalizeOptions_maxAttempts_pos options opts hnorm
    obtain ⟨k, hk⟩ : ∃ k, opts.maxAttempts = k + 1 := ⟨opts.maxAttempts - 1, by omega⟩
    obtain ⟨h1, h2⟩ := retryStep_budget_preattempt o opts task (o.times 0) 0
      { initSt with timeIdx := 1 } m (by simpa using hsig) hbud (by simpa using hgt)
    simp only [retry, hnorm, hk, retryLoop]
    rw [h1]
    exact ⟨by simp, by simpa using h2⟩
  · intro o opts task startedAt attempt st err m hs hbud htask hab hlt hsr hstatus hjit
      hle hexc
    rw [retryStep_fail_nosig o opts task startedAt attempt st err hs
      (fun m' hm' => by rw [hbud] at hm'; cases hm'; exact hle) (htask _)]
    obtain ⟨h1, h2⟩ := handleFailure_budget_presleep o opts startedAt (attempt + 1)
      (mkCtx o opts startedAt (attempt + 1) (st.timeIdx + 1)) err
      { st with timeIdx := st.timeIdx + 1 + 1
                trace := st.trace ++
                  [.invoke (mkCtx o opts startedAt (attempt + 1) (st.timeIdx + 1))] } m
      hs hbud hab hlt hsr hstatus hjit (by simpa using hexc)
    refine ⟨by simpa using h1, mkCtx o opts startedAt (attempt + 1) (st.timeIdx + 1), ?_⟩
    rw [h2]

/-- Witness for C7, both checks: a clock jumping to 200 ms against a 100 ms
budget trips the pre-attempt check with zero attempts; and a 1000 ms
un-jittered backoff against a 100 ms budget trips the pre-sleep check with
the failing error as cause. -/
theorem retry_budget_enforced_witness :
    (∃ opts, normalizeOptions ({ maxElapsedMs := some (.num 100) } : RetryOptions) =
        .ok opts ∧
      (retry (⟨fun i => if i = 0 then 0 else 200, fun _ => .num 0, fun _ => false,
          fun _ => false, fun _ => .nan⟩ : Oracle)
        (fun _ => (Except.ok 0 : Except JsError ℕ))
        { maxElapsedMs := some (.num 100) }).1 =
          .timeoutError 0 200 100 Option.none ∧
      ((retry (⟨fun i => if i = 0 then 0 else 200, fun _ => .num 0, fun _ => false,
          fun _ => false, fun _ => .nan⟩ : Oracle)
        (fun _ => (Except.ok 0 : Except JsError ℕ))
        { maxElapsedMs := some (.num 100) }).2).trace = []) ∧
    (retryStep constOracle
        { maxAttempts := 3, baseMs := 1000, capMs := 2000, factor := 2,
          jitter := Jitter.none, rng := Option.none, hasSignal := false,
          maxElapsedMs := some 100, shouldRetry := Option.none,
          respectRetryAfter := true, retryAfterHeaderName := "retry-after",
          retryAfterBodyUnit := .disabled, wrapError := false }
        (fun _ => (Except.error ⟨.vobj [("message", .vstr "boom")], false⟩ :
          Except JsError ℕ))
        0 0 initSt).1 =
        some (.timeoutError 1 0 100
          (some ⟨.vobj [("message", .vstr "boom")], false⟩)) ∧
      ∃ c, ((retryStep constOracle
        { maxAttempts := 3, baseMs := 1000, capMs := 2000, factor := 2,
          jitter := Jitter.none, rng := Option.none, hasSignal := false,
          maxElapsedMs := some 100, shouldRetry := Option.none,
          respectRetryAfter := true, retryAfterHeaderName := "retry-after",
          retryAfterBodyUnit := .disabled, wrapError := false }
        (fun _ => (Except.error ⟨.vobj [("message", .vstr "boom")], false⟩ :
          Except JsError ℕ))
        0 0 initSt).2).trace = initSt.trace ++ [.invoke c] := by
  constructor
  · refine ⟨_, rfl, ?_⟩
    have h := (retry_budget_enforced (T := ℕ)).1
      (⟨fun i => if i = 0 then 0 else 200, fun _ => .num 0, fun _ => false,
        fun _ => false, fun _ => .nan⟩ : Oracle)
      (fun _ => (Except.ok 0 : Except JsError ℕ))
      ({ maxElapsedMs := some (.num 100) } : RetryOptions) _ 100 rfl rfl (Or.inl rfl)
      (by with_unfolding_all decide)
    simpa using h
  · have h := (retry_budget_enforced (T := ℕ)).2 constOracle
      { maxAttempts := 3, baseMs := 1000, capMs := 2000, factor := 2,
        jitter := Jitter.none, rng := Option.none, hasSignal := false,
        maxElapsedMs := some 100, shouldRetry := Option.none,
        respectRetryAfter := true, retryAfterHeaderName := "retry-after",
        retryAfterBodyUnit := .disabled, wrapError := false }
      (fun _ => (Except.error ⟨.vobj [("message", .vstr "boom")], false⟩ :
        Except JsError ℕ))
      0 0 initSt ⟨.vobj [("message", .vstr "boom")], false⟩ 100 rfl rfl (fun _ => rfl)
      (by decide) (by decide) rfl (by decide) rfl (by with_unfolding_all decide)
      (by with_unfolding_all decide)
    simpa using h

/-! ## Claim C3: backoff and jitter arithmetic -/

/-- `jsTrunc` is the identity on integers. -/
lemma jsTrunc_intCast (n : ℤ) : jsTrunc (n : ℚ) = n := by
  unfold jsTrunc
  split
  · rw [show (-(n : ℚ)) = ((-n : ℤ) : ℚ) by push_cast; ring, Int.floor_intCast]
    ring
  · exact Int.floor_intCast n

/-- The backoff path of `planDelay` with full jitter: when no hint applies
(here: the error carries no status at all), the delay is the jittered capped
backoff and one random draw is consumed. -/
lemma planDelay_backoff_fulljitter (o : Oracle) (opts : NOpts) (err : JsError) (a : ℕ)
    (st : St)
    (hstatus : getStatus err.val = Option.none)
    (hjit : opts.jitter = Jitter.full) :
    planDelay o opts err a st =
      (.backoff,
        applyFullJitter (computeBackoffMs a ⟨opts.baseMs, opts.capMs, opts.factor⟩)
          ((opts.rng.getD o.rng) st.rngIdx),
        { st with rngIdx := st.rngIdx + 1 }) := by
  simp only [planDelay, retryAfterHintMs, hstatus, hjit]
  simp

/-- A host whose random source constantly draws `1/2`, as in the worked
example of the specification. -/
def halfOracle : Oracle :=
  ⟨fun _ => 0, fun _ => .num (1 / 2), fun _ => false, fun _ => false, fun _ => .nan⟩

/-- **C3, counterexample.**  The claimed delay formula
`⌊r × min(capMs, baseMs × factor^(k−1))⌋` fails: the engine truncates the
capped backoff to an integer *before* applying jitter
(`applyFullJitter(computeBackoffMs(...))` with `toIntMs` inside
`computeBackoffMs`).  With `baseMs = 10.5`, `capMs = 2000`, `factor = 2` and
a constant draw `r = 0.97`, the delay scheduled after the failure of attempt
1 is `⌊0.97 × 10⌋ = 9`, while the claimed formula gives
`⌊0.97 × 10.5⌋ = 10`. -/
theorem jitter_formula_counterexample :
    eventDelays ((retry (⟨fun _ => 0, fun _ => .num (97 / 100), fun _ => false,
          fun _ => false, fun _ => .nan⟩ : Oracle)
        (fun _ => (Except.error ⟨.vobj [("message", .vstr "boom")], false⟩ :
          Except JsError ℕ))
        { maxAttempts := some (.num 2), baseMs := some (.num (21 / 2)),
          capMs := some (.num 2000), factor := some (.num 2) }).2).trace = [9] ∧
      (⌊(97 / 100 : ℚ) * min (2000 : ℚ) ((21 / 2) * 2 ^ (1 - 1))⌋ : ℤ) = 10 := by
  constructor
  · with_unfolding_all decide
  · with_unfolding_all decide

set_option maxHeartbeats 4000000 in
/-- **C3 (amended).**  Backoff scheduling when no `Retry-After` hint applies:
the capped exponential backoff `min(capMs, baseMs × factor^(k−1))` is first
truncated to a non-negative integer.  With full jitter the scheduled delay is
`⌊clamp(r) × truncatedBackoff⌋` where the draw `r` is clamped into
`[0, 0.999999999]`, and one fresh draw is consumed; with jitter mode `none`
the truncated capped backoff is used directly.  In particular with
`baseMs = 1000`, `capMs = 1500`, `factor = 2` and a constant draw `1/2`, the
delays scheduled after the failures of attempts 1 and 2 are `500` and
`750`. -/
theorem backoff_delay_formula :
    (∀ (o : Oracle) (opts : NOpts) (err : JsError) (a : ℕ) (st : St) (rq : ℚ),
      getStatus err.val = Option.none →
      opts.jitter = Jitter.full →
      (opts.rng.getD o.rng) st.rngIdx = .num rq →
      planDelay o opts err a st =
        (.backoff,
          (max 0 ⌊max 0 (min (999999999 / 1000000000 : ℚ) rq) *
            (((max 0 (jsTrunc (min opts.capMs
              (opts.baseMs * opts.factor ^ (a - 1))))).toNat : ℕ) : ℚ)⌋).toNat,
          { st with rngIdx := st.rngIdx + 1 })) ∧
    (∀ (o : Oracle) (opts : NOpts) (err : JsError) (a : ℕ) (st : St),
      getStatus err.val = Option.none →
      opts.jitter = Jitter.none →
      planDelay o opts err a st =
        (.backoff,
          (max 0 (jsTrunc (min opts.capMs
            (opts.baseMs * opts.factor ^ (a - 1))))).toNat,
          st)) ∧
    eventDelays ((retry halfOracle
        (fun _ => (Except.error ⟨.vobj [("message", .vstr "boom")], false⟩ :
          Except JsError ℕ))
        { maxAttempts := some (.num 3), baseMs := some (.num 1000),
          capMs := some (.num 1500), factor := some (.num 2) }).2).trace
      = [500, 750] := by
  refine ⟨?_, ?_, ?_⟩
  · intro o opts err a st rq hstatus hjit hr
    rw [planDelay_backoff_fulljitter o opts err a st hstatus hjit, hr]
    unfold applyFullJitter computeBackoffMs
    simp only [toIntMs]
    rw [jsTrunc_intCast]
  · intro o opts err a st hstatus hjit
    rw [planDelay_backoff_nojitter o opts err a st hstatus hjit]
    unfold computeBackoffMs
    simp only [toIntMs]
  · with_unfolding_all decide

set_option maxHeartbeats 4000000 in
/-- Witness for C3: at attempt 1 with `baseMs = 1000`, `capMs = 1500`,
`factor = 2` and the constant draw `1/2`, full jitter schedules `500` ms; at
attempt 2 with jitter mode `none` the truncated capped backoff `1500` ms is
used directly. -/
theorem backoff_delay_formula_witness :
    planDelay halfOracle
        { maxAttempts := 3, baseMs := 1000, capMs := 1500, factor := 2,
          jitter := Jitter.full, rng := Option.none, hasSignal := false,
          maxElapsedMs := Option.none, shouldRetry := Option.none,
          respectRetryAfter := true, retryAfterHeaderName := "retry-after",
          retryAfterBodyUnit := .disabled, wrapError := false }
        ⟨.vobj [("message", .vstr "boom")], false⟩ 1 initSt =
      (.backoff, 500, { initSt with rngIdx := 1 }) ∧
    planDelay halfOracle
        { maxAttempts := 3, baseMs := 1000, capMs := 1500, factor := 2,
          jitter := Jitter.none, rng := Option.none, hasSignal := false,
          maxElapsedMs := Option.none, shouldRetry := Option.none,
          respectRetryAfter := true, retryAfterHeaderName := "retry-after",
          retryAfterBodyUnit := .disabled, wrapError := false }
        ⟨.vobj [("message", .vstr "boom")], false⟩ 2 initSt =
      (.backoff, 1500, initSt) := by
  constructor
  · have h := backoff_delay_formula.1 halfOracle
      { maxAttempts := 3, baseMs := 1000, capMs := 1500, factor := 2,
        jitter := Jitter.full, rng := Option.none, hasSignal := false,
        maxElapsedMs := Option.none, shouldRetry := Option.none,
        respectRetryAfter := true, retryAfterHeaderName := "retry-after",
        retryAfterBodyUnit := .disabled, wrapError := false }
      ⟨.vobj [("message", .vstr "boom")], false⟩ 1 initSt (1 / 2)
      (by with_unfolding_all decide) rfl rfl
    rw [h]
    with_unfolding_all rfl
  · have h := backoff_delay_formula.2.1 halfOracle
      { maxAttempts := 3, baseMs := 1000, capMs := 1500, factor := 2,
        jitter := Jitter.none, rng := Option.none, hasSignal := false,
        maxElapsedMs := Option.none, shouldRetry := Option.none,
        respectRetryAfter := true, retryAfterHeaderName := "retry-after",
        retryAfterBodyUnit := .disabled, wrapError := false }
      ⟨.vobj [("message", .vstr "boom")], false⟩ 2 initSt
      (by with_unfolding_all decide) rfl
    rw [h]
    with_unfolding_all rfl

end AsyncRetry
